import Mathlib

/-! RTOC parameter system, process steps and session: a shallow embedding

The definitions follow `src/RTOC/lib/parameter.h`, `src/CellSorter/lib/process.h` and
`src/RTOC/lib/experiment.h`.

* A C++ object is a Lean structure holding its member variables.
* A `const` member function that may throw returns `Except Exn α`.
* A mutating member function returns the pair of its outcome (`Except Exn Unit`) and the
  object after the call; an exception does not roll back writes made before the `throw`.
* `int` is modelled by `Int` together with the bounds `INT_MIN`, `INT_MAX`.
-/

namespace RTOC

/-! ## Exceptions -/

/-- The standard exceptions thrown by the code, each with its `what()` text. -/
inductive Exn where
  | runtime_error (what : String)
  | invalid_argument (what : String)
  | out_of_range (what : String)
  | archive_exception (what : String)
  deriving DecidableEq, Repr

/-- Text thrown by `getValue` when `RANGE_SET` is missing. -/
def msgRangeNotSet : String := "parameter range/options not set."

/-- Text thrown by `getValue` when `DEFAULT_SET` is missing. -/
def msgDefaultNotSet : String := "parameter default not set."

/-- Text thrown by `ValueParameter::setValue` for a value outside the range. -/
def msgOutsideRange : String := "default value is outside parameter range"

/-- Text thrown by `EnumParameter::getValueStr` when no initialization bit is set. -/
def msgNotInitialized : String := "value parameter is not initialized"

/-- The two "not initialized" failures of `getValue`. -/
def Exn.isNotInitialized (e : Exn) : Prop :=
  e = Exn.runtime_error msgRangeNotSet ∨ e = Exn.runtime_error msgDefaultNotSet

/-- The "out of range" failure of `ValueParameter::setValue`. -/
def Exn.isOutOfRange (e : Exn) : Prop :=
  e = Exn.runtime_error msgOutsideRange

/-! ## Macros of parameter.h -/

/-- Macro `#define SPLITCHAR '|'` -/
def SPLITCHAR : Char := '|'

/-- Macro `#define RANGE_SET (1 << 0)` -/
def RANGE_SET : Nat := 1 <<< 0

/-- Macro `#define DEFAULT_SET (1 << 1)` -/
def DEFAULT_SET : Nat := 1 <<< 1

/-! ## Template arguments -/

/-- Result of `typeid(T).name()`: an implementation-defined tag of the template argument. -/
class TypeId (T : Type) where
  name : String

/-- The value-initialized `T()`. -/
class ValueInit (T : Type) where
  zero : T

/-- What `ValueParameter<T>` uses of its numeric template argument besides `T()`:
`std::to_string`, and the conversion that the `typeid` dispatch of `setValueStr` selects
for `T` (`stoi` for `int`, `stod` for `double`, `stof` for `float`, `T()` otherwise). -/
class Numeric (T : Type) extends TypeId T, ValueInit T where
  to_string : T → String
  fromStr : String → Except Exn T

/-! ## The template argument `int` -/

/-- Smallest value of a 32-bit `int`. -/
def INT_MIN : Int := -2147483648

/-- Largest value of a 32-bit `int`. -/
def INT_MAX : Int := 2147483647

/-- Values representable in an `int`. -/
def isInt (v : Int) : Prop := INT_MIN ≤ v ∧ v ≤ INT_MAX

instance (v : Int) : Decidable (isInt v) := by unfold isInt; infer_instance

/-- Classification `isspace` of the C locale: space, `\t`, `\n`, `\v`, `\f`, `\r`. -/
def isspace (c : Char) : Bool :=
  c.toNat = 32 || (9 ≤ c.toNat && c.toNat ≤ 13)

/-- Classification `isdigit`. -/
def isdigit (c : Char) : Bool :=
  48 ≤ c.toNat && c.toNat ≤ 57

/-- Character of a decimal digit `d < 10`. -/
def digitChar (d : Nat) : Char := Char.ofNat (48 + d)

/-- Value of a decimal digit character. -/
def digitVal (c : Char) : Nat := c.toNat - 48

/-- Decimal digits of `n`, most significant first, pushed in front of `acc`. -/
def decimalAux : Nat → Nat → List Char → List Char
  | 0, _, acc => acc
  | fuel + 1, n, acc =>
    if n < 10 then digitChar n :: acc
    else decimalAux fuel (n / 10) (digitChar (n % 10) :: acc)

/-- Decimal text of a natural number (`"0"` for zero, no leading zeros otherwise). -/
def decimal (n : Nat) : List Char := decimalAux (n + 1) n []

/-- Function `std::to_string(int)`: the `%d` rendering, a minus sign followed by the digits of the
magnitude for negative values. -/
def to_string_int (v : Int) : String :=
  String.mk (if v < 0 then '-' :: decimal v.natAbs else decimal v.natAbs)

/-- Number denoted by a sequence of decimal digit characters. -/
def digitsValue (ds : List Char) : Nat :=
  ds.foldl (fun a c => 10 * a + digitVal c) 0

/-- The digits part of `stoi`, after white space and sign: the longest run of digits is
converted; no digit at all is `std::invalid_argument`, a value that does not fit an `int`
is `std::out_of_range`. Characters after the digits are ignored. -/
def stoiDigits (neg : Bool) (s : List Char) : Except Exn Int :=
  let ds := s.takeWhile isdigit
  if ds = [] then .error (.invalid_argument "stoi")
  else
    let n : Int := (digitsValue ds : Nat)
    let v : Int := if neg then -n else n
    if v < INT_MIN ∨ v > INT_MAX then .error (.out_of_range "stoi") else .ok v

/-- Function `std::stoi(str)` in base 10: leading white space is skipped, one optional sign is
read, then the digits. -/
def stoi (str : String) : Except Exn Int :=
  match str.toList.dropWhile isspace with
  | [] => .error (.invalid_argument "stoi")
  | c :: r =>
    if c = '-' then stoiDigits true r
    else if c = '+' then stoiDigits false r
    else stoiDigits false (c :: r)

/-- Tag of `int`; `typeid(int).name()` is `"i"` under the Itanium ABI. -/
instance : TypeId Int where
  name := "i"

/-- The instantiation `T = int`: `T()` is `0` and `setValueStr` takes the `stoi` branch. -/
instance : Numeric Int where
  zero := 0
  to_string := to_string_int
  fromStr := stoi

/-! ## ValueParameter -/

/-- Members of `ValueParameter<T>`, those inherited from `ParameterBase` first.
`m_type` is never written or read by the code and is left out. -/
structure ValueParameter (T : Type) where
  m_options : List String
  m_name : String
  m_isModifiable : Bool
  m_isInitialized : Nat
  m_val : T
  m_range : T × T

namespace ValueParameter

variable {T : Type}

/-- Constructor `ValueParameter(parent, name, v)`: the base is built from `name`, `m_val`
from `v` (the caller passes `T()` when the C++ default argument is used); `m_range` is the
value-initialized pair; the parameter is pushed onto the back of the parent container.
The entry pushed (`this`) is represented by the display name. -/
def construct [ValueInit T] (parentProcessContainer : List String) (name : String)
    (v : T) : ValueParameter T × List String :=
  ({ m_options := [], m_name := name, m_isModifiable := true, m_isInitialized := 0,
     m_val := v, m_range := (ValueInit.zero, ValueInit.zero) },
   parentProcessContainer ++ [name])

/-- Method `updateOptions`: `m_options` becomes the four strings tag, name, low, high. -/
def updateOptions [Numeric T] (p : ValueParameter T) : ValueParameter T :=
  { p with m_options := [TypeId.name T, p.m_name,
                         Numeric.to_string p.m_range.1, Numeric.to_string p.m_range.2] }

/-- Method `setRange(start, stop)`. -/
def setRange [Numeric T] (p : ValueParameter T) (start stop : T) : ValueParameter T :=
  let p1 := { p with m_isInitialized := p.m_isInitialized ||| RANGE_SET }
  let p2 := { p1 with m_range := (start, stop) }
  updateOptions p2

/-- Method `setValue(v)`: the `DEFAULT_SET` bit is written before the range test. -/
def setValue [LinearOrder T] (p : ValueParameter T) (v : T) :
    Except Exn Unit × ValueParameter T :=
  let p1 := { p with m_isInitialized := p.m_isInitialized ||| DEFAULT_SET }
  if ¬ (v ≥ p1.m_range.1 ∧ v ≤ p1.m_range.2) then
    (.error (.runtime_error msgOutsideRange), p1)
  else
    (.ok (), { p1 with m_val := v })

/-- Method `getValue()`. -/
def getValue (p : ValueParameter T) : Except Exn T :=
  if p.m_isInitialized &&& RANGE_SET = 0 then
    .error (.runtime_error msgRangeNotSet)
  else if p.m_isInitialized &&& DEFAULT_SET = 0 then
    .error (.runtime_error msgDefaultNotSet)
  else
    .ok p.m_val

/-- Method `getValueStr()`: `std::to_string(getValue())`. -/
def getValueStr [Numeric T] (p : ValueParameter T) : Except Exn String :=
  match p.getValue with
  | .ok v => .ok (Numeric.to_string v)
  | .error e => .error e

/-- Method `setValueStr(value)`: `m_val` is assigned the converted text; a conversion that
throws leaves the object untouched. -/
def setValueStr [Numeric T] (p : ValueParameter T) (value : String) :
    Except Exn Unit × ValueParameter T :=
  match (Numeric.fromStr value : Except Exn T) with
  | .ok v => (.ok (), { p with m_val := v })
  | .error e => (.error e, p)

end ValueParameter

/-- Calls a client can make on a `ValueParameter<T>` after construction. -/
inductive ValueOp (T : Type) where
  | setModifiable (val : Bool)
  | setRange (start stop : T)
  | setValue (v : T)
  | setValueStr (value : String)

namespace ValueParameter

variable {T : Type}

/-- Method `ParameterBase::setModifiable(val)`. -/
def setModifiable (p : ValueParameter T) (val : Bool) : ValueParameter T :=
  { p with m_isModifiable := val }

/-- The object after one call; an exception thrown by the call is caught by the caller
and the object lives on in the state the call left it in. -/
def step [LinearOrder T] [Numeric T] (p : ValueParameter T) : ValueOp T → ValueParameter T
  | .setModifiable val => p.setModifiable val
  | .setRange start stop => p.setRange start stop
  | .setValue v => (p.setValue v).2
  | .setValueStr value => (p.setValueStr value).2

/-- The object after a sequence of calls, first call first. -/
def run [LinearOrder T] [Numeric T] (p : ValueParameter T) (ops : List (ValueOp T)) :
    ValueParameter T :=
  ops.foldl step p

end ValueParameter

/-- Whether `setRange` occurs among the calls. -/
def ValueOp.calledSetRange {T : Type} (ops : List (ValueOp T)) : Prop :=
  ∃ start stop, ValueOp.setRange start stop ∈ ops

/-- Whether `setValue` occurs among the calls. -/
def ValueOp.calledSetValue {T : Type} (ops : List (ValueOp T)) : Prop :=
  ∃ v, ValueOp.setValue v ∈ ops

/-! ## std::map -/

/-- A `std::map<K, string>`: its entries in iteration order, which is strictly ascending
key order (so keys are unique). -/
structure StdMap (K : Type) [LT K] where
  entries : List (K × String)
  ascending : entries.Pairwise (fun a b => a.1 < b.1)

/-- The empty map, as left by the default constructor. -/
def StdMap.empty {K : Type} [LT K] : StdMap K :=
  ⟨[], List.Pairwise.nil⟩

/-! ## EnumParameter -/

/-- Members of `EnumParameter<T>`, those inherited from `ParameterBase` first. -/
structure EnumParameter (T : Type) [LT T] where
  m_options : List String
  m_name : String
  m_isModifiable : Bool
  m_isInitialized : Nat
  m_val : T
  m_enumOptions : StdMap T

/-- Calls a client can make on an `EnumParameter<T>` after construction. -/
inductive EnumOp (T : Type) [LT T] where
  | setModifiable (val : Bool)
  | setOptions (options : StdMap T)
  | setValue (v : T)
  | setValueStr (value : String)

namespace EnumParameter

variable {T : Type} [LinearOrder T]

/-- Constructor `EnumParameter(parent, name, v)`: the option map starts empty and the
parameter is pushed onto the back of the parent container. -/
def construct (parentProcessContainer : List String) (name : String) (v : T) :
    EnumParameter T × List String :=
  ({ m_options := [], m_name := name, m_isModifiable := true, m_isInitialized := 0,
     m_val := v, m_enumOptions := StdMap.empty },
   parentProcessContainer ++ [name])

/-- Method `ParameterBase::setModifiable(val)`. -/
def setModifiable (p : EnumParameter T) (val : Bool) : EnumParameter T :=
  { p with m_isModifiable := val }

/-- Method `updateOptions`: `m_options` becomes tag, name, then the labels in map order. -/
def updateOptions [TypeId T] (p : EnumParameter T) : EnumParameter T :=
  { p with m_options := [TypeId.name T, p.m_name] ++ p.m_enumOptions.entries.map Prod.snd }

/-- Method `setOptions(options)`. -/
def setOptions [TypeId T] (p : EnumParameter T) (options : StdMap T) : EnumParameter T :=
  let p1 := { p with m_isInitialized := p.m_isInitialized ||| RANGE_SET }
  let p2 := { p1 with m_enumOptions := options }
  updateOptions p2

/-- Method `setValue(v)`: any `v` is stored. -/
def setValue (p : EnumParameter T) (v : T) : Except Exn Unit × EnumParameter T :=
  let p1 := { p with m_isInitialized := p.m_isInitialized ||| DEFAULT_SET }
  (.ok (), { p1 with m_val := v })

/-- Method `getValue()`. -/
def getValue (p : EnumParameter T) : Except Exn T :=
  if p.m_isInitialized &&& RANGE_SET = 0 then
    .error (.runtime_error msgRangeNotSet)
  else if p.m_isInitialized &&& DEFAULT_SET = 0 then
    .error (.runtime_error msgDefaultNotSet)
  else
    .ok p.m_val

/-- The loop of `getValueStr`: the label of the first entry whose key is `val`, the
text `"ERROR"` when the loop runs to its end. -/
def lookupLabel (val : T) : List (T × String) → String
  | [] => "ERROR"
  | v :: rest => if v.1 = val then v.2 else lookupLabel val rest

/-- Method `getValueStr()`. -/
def getValueStr (p : EnumParameter T) : Except Exn String :=
  if p.m_isInitialized = 0 then
    .error (.runtime_error msgNotInitialized)
  else
    .ok (lookupLabel p.m_val p.m_enumOptions.entries)

/-- The loop of `setValueStr`: every entry whose label equals `value` assigns its key
to `m_val`; the loop has no `break`. -/
def assignMatches (value : String) : List (T × String) → T → T
  | [], val => val
  | v :: rest, val => assignMatches value rest (if v.2 = value then v.1 else val)

/-- Method `setValueStr(value)`: nothing is thrown. -/
def setValueStr (p : EnumParameter T) (value : String) : Except Exn Unit × EnumParameter T :=
  (.ok (), { p with m_val := assignMatches value p.m_enumOptions.entries p.m_val })

/-- The object after one call. -/
def step [TypeId T] (p : EnumParameter T) : EnumOp T → EnumParameter T
  | .setModifiable val => p.setModifiable val
  | .setOptions options => p.setOptions options
  | .setValue v => (p.setValue v).2
  | .setValueStr value => (p.setValueStr value).2

/-- The object after a sequence of calls, first call first. -/
def run [TypeId T] (p : EnumParameter T) (ops : List (EnumOp T)) : EnumParameter T :=
  ops.foldl step p

end EnumParameter

/-- Whether `setOptions` occurs among the calls. -/
def EnumOp.calledSetOptions {T : Type} [LT T] (ops : List (EnumOp T)) : Prop :=
  ∃ options, EnumOp.setOptions options ∈ ops

/-- Whether `setValue` occurs among the calls. -/
def EnumOp.calledSetValue {T : Type} [LT T] (ops : List (EnumOp T)) : Prop :=
  ∃ v, EnumOp.setValue v ∈ ops

/-! ## double -/

/-- A `double`, carried as its 64-bit pattern: the code modelled below stores, copies and
compares doubles, it does no arithmetic on them. -/
structure Double where
  bits : Nat
  deriving DecidableEq, Repr

/-- The value `double()` is `+0.0`, the all-zero pattern. -/
instance : ValueInit Double where
  zero := ⟨0⟩

/-- Whether a `double` is a NaN: all exponent bits set and a fraction that is not zero,
which is a magnitude (the low 63 bits) above that of infinity. -/
def Double.isNaN (d : Double) : Bool :=
  decide (0x7FF0000000000000 < d.bits % 2 ^ 63)

/-- Place of a `double` that is not a NaN in the order of IEEE 754: its magnitude bits,
negated when the sign bit is set; both zeros sit at `0`, the infinities at the two ends. -/
def Double.key (d : Double) : Int :=
  if d.bits / 2 ^ 63 % 2 = 1 then -((d.bits % 2 ^ 63 : Nat) : Int)
  else ((d.bits % 2 ^ 63 : Nat) : Int)

/-- Operator `<=` on `double`: false as soon as one side is a NaN. -/
def Double.le (a b : Double) : Bool :=
  !a.isNaN && !b.isNaN && decide (a.key ≤ b.key)

/-- Operator `<` on `double`: false as soon as one side is a NaN. -/
def Double.lt (a b : Double) : Bool :=
  !a.isNaN && !b.isNaN && decide (a.key < b.key)

/-- Operator `>=` on `double`. -/
def Double.ge (a b : Double) : Bool := Double.le b a

/-- Operator `>` on `double`. -/
def Double.gt (a b : Double) : Bool := Double.lt b a

/-- Method `setValue(v)` of the instantiation `ValueParameter<double>`: the body of
`setValue` with the comparisons of `double`. -/
def ValueParameter.setValue_double (p : ValueParameter Double) (v : Double) :
    Except Exn Unit × ValueParameter Double :=
  let p1 := { p with m_isInitialized := p.m_isInitialized ||| DEFAULT_SET }
  if ¬ (Double.ge v p1.m_range.1 = true ∧ Double.le v p1.m_range.2 = true) then
    (.error (.runtime_error msgOutsideRange), p1)
  else
    (.ok (), { p1 with m_val := v })

/-! ## Boost archives -/

/-- A primitive datum in an archive. -/
inductive ArchiveValue where
  | int (i : Int)
  | double (d : Double)
  deriving DecidableEq, Repr

/-- An archive: an output archive with the data written so far, or an input archive with
the data not yet read. -/
inductive Archive where
  | saving (written : List ArchiveValue)
  | loading (remaining : List ArchiveValue)
  deriving DecidableEq, Repr

/-- Types archived as primitives; an enum is archived as its `int` value. -/
class Primitive (T : Type) where
  put : T → ArchiveValue
  get : ArchiveValue → Option T

instance : Primitive Int where
  put := ArchiveValue.int
  get := fun a => match a with
    | .int i => some i
    | .double _ => none

instance : Primitive Double where
  put := ArchiveValue.double
  get := fun a => match a with
    | .int _ => none
    | .double d => some d

/-- Operator `ar & BOOST_SERIALIZATION_NVP(x)` for a primitive `x`: an output archive appends `x`
and leaves it as it is, an input archive reads the next datum into `x`. -/
def Archive.amp {T : Type} [Primitive T] (ar : Archive) (x : T) : Except Exn (Archive × T) :=
  match ar with
  | .saving written => .ok (.saving (written ++ [Primitive.put x]), x)
  | .loading [] => .error (.archive_exception "input stream error")
  | .loading (a :: rest) =>
    match (Primitive.get a : Option T) with
    | some y => .ok (.loading rest, y)
    | none => .error (.archive_exception "input stream error")

/-- Method `ValueParameter::serialize`: `ar & m_val`. -/
def ValueParameter.serialize {T : Type} [Primitive T] (ar : Archive) (p : ValueParameter T) :
    Except Exn (Archive × ValueParameter T) :=
  match ar.amp p.m_val with
  | .ok (ar1, v) => .ok (ar1, { p with m_val := v })
  | .error e => .error e

/-- Method `EnumParameter::serialize`: `ar & m_val`. -/
def EnumParameter.serialize {T : Type} [LinearOrder T] [Primitive T] (ar : Archive)
    (p : EnumParameter T) : Except Exn (Archive × EnumParameter T) :=
  match ar.amp p.m_val with
  | .ok (ar1, v) => .ok (ar1, { p with m_val := v })
  | .error e => .error e

/-- Saving an object: its `serialize` run on an empty output archive. -/
def saveWith {α : Type} (serialize : Archive → α → Except Exn (Archive × α)) (s : α) :
    Except Exn (List ArchiveValue) :=
  match serialize (.saving []) s with
  | .ok (.saving written, _) => .ok written
  | .ok (.loading _, _) => .error (.archive_exception "not an output archive")
  | .error e => .error e

/-- Loading an object: its `serialize` run on an input archive over `data`, applied to
the object `fresh` that receives the data. -/
def loadWith {α : Type} (serialize : Archive → α → Except Exn (Archive × α))
    (data : List ArchiveValue) (fresh : α) : Except Exn α :=
  match serialize (.loading data) fresh with
  | .ok (_, t) => .ok t
  | .error e => .error e

/-- Name and current value of a numeric parameter, as reached through `m_parameters`. -/
def ValueParameter.entry {T : Type} [Primitive T] (p : ValueParameter T) :
    String × ArchiveValue :=
  (p.m_name, Primitive.put p.m_val)

/-- Name and current value of an enum parameter, as reached through `m_parameters`. -/
def EnumParameter.entry {T : Type} [LinearOrder T] [Primitive T] (p : EnumParameter T) :
    String × ArchiveValue :=
  (p.m_name, Primitive.put p.m_val)

/-- Calls through which a client can change a numeric parameter after construction: the
calls of `ValueOp`, the public `updateOptions()`, and `serialize` on an output archive
(saving) or on an input archive holding `data` (loading). -/
inductive ValueCall (T : Type) where
  | op (o : ValueOp T)
  | updateOptions
  | save
  | load (data : List ArchiveValue)

namespace ValueParameter

variable {T : Type}

/-- The object after one call; an exception thrown by the call (an out-of-range `setValue`,
a text that does not parse, an archive that runs out) is caught by the caller and the
object lives on in the state the call left it in. -/
def call [LinearOrder T] [Numeric T] [Primitive T] (p : ValueParameter T) :
    ValueCall T → ValueParameter T
  | .op o => p.step o
  | .updateOptions => p.updateOptions
  | .save =>
    match ValueParameter.serialize (.saving []) p with
    | .ok r => r.2
    | .error _ => p
  | .load data =>
    match ValueParameter.serialize (.loading data) p with
    | .ok r => r.2
    | .error _ => p

/-- The object after a sequence of calls, first call first. -/
def runCalls [LinearOrder T] [Numeric T] [Primitive T] (p : ValueParameter T)
    (calls : List (ValueCall T)) : ValueParameter T :=
  calls.foldl call p

end ValueParameter

/-! ## Process steps (process.h)

The constructor bodies are in process.cpp, which is not among the sources; what process.h
fixes is the default member initializers and `serialize`. `cv::MorphTypes` and
`matlab::regionPropTypes` are carried as their `int` values. -/

/-- Members of `class Morph`: `m_parameters` of `ProcessBase`, then the parameters in
declaration order. -/
structure Morph where
  m_parameters : List String
  m_morphType : EnumParameter Int
  m_morphValueX : ValueParameter Int
  m_morphValueY : ValueParameter Int

/-- Default member initializers of `Morph`, run in declaration order; each parameter
pushes itself onto `m_parameters`. -/
def Morph.memberInit : Morph :=
  let x0 := EnumParameter.construct [] "Morphology_type" (0 : Int)
  let x1 := ValueParameter.construct x0.2 "Structural_element_X_axis" (0 : Int)
  let x2 := ValueParameter.construct x1.2 "Structural_element_Y_axis" (0 : Int)
  { m_parameters := x2.2, m_morphType := x0.1, m_morphValueX := x1.1, m_morphValueY := x2.1 }

/-- Method `Morph::serialize`: the members named in its body, in that order. -/
def Morph.serialize (ar : Archive) (s : Morph) : Except Exn (Archive × Morph) := do
  let r0 ← EnumParameter.serialize ar s.m_morphType
  let r1 ← ValueParameter.serialize r0.1 s.m_morphValueX
  let r2 ← ValueParameter.serialize r1.1 s.m_morphValueY
  pure (r2.1, { s with m_morphType := r0.2, m_morphValueX := r1.2, m_morphValueY := r2.2 })

/-- The parameters of a `Morph` reached through `getParameters()`, in list order,
each with its name and current value. -/
def Morph.parameters (s : Morph) : List (String × ArchiveValue) :=
  [s.m_morphType.entry, s.m_morphValueX.entry, s.m_morphValueY.entry]

/-- Members of `class Binarize`: `m_parameters` of `ProcessBase`, then the parameters in
declaration order. -/
structure Binarize where
  m_parameters : List String
  m_edgeThreshold : ValueParameter Double
  m_maxVal : ValueParameter Double

/-- Default member initializers of `Binarize`, run in declaration order; each parameter
pushes itself onto `m_parameters`. -/
def Binarize.memberInit : Binarize :=
  let x0 := ValueParameter.construct [] "Edge_threshold" (ValueInit.zero : Double)
  let x1 := ValueParameter.construct x0.2 "Maximum_binary_value" (ValueInit.zero : Double)
  { m_parameters := x1.2, m_edgeThreshold := x0.1, m_maxVal := x1.1 }

/-- Method `Binarize::serialize`: the members named in its body, in that order. -/
def Binarize.serialize (ar : Archive) (s : Binarize) : Except Exn (Archive × Binarize) := do
  let r0 ← ValueParameter.serialize ar s.m_edgeThreshold
  let r1 ← ValueParameter.serialize r0.1 s.m_maxVal
  pure (r1.1, { s with m_edgeThreshold := r0.2, m_maxVal := r1.2 })

/-- The parameters of a `Binarize` reached through `getParameters()`, in list order,
each with its name and current value. -/
def Binarize.parameters (s : Binarize) : List (String × ArchiveValue) :=
  [s.m_edgeThreshold.entry, s.m_maxVal.entry]

/-- Members of `class Normalize`: `m_parameters` of `ProcessBase`, then the parameters in
declaration order. -/
structure Normalize where
  m_parameters : List String
  m_normalizeStrength : ValueParameter Int

/-- Default member initializers of `Normalize`, run in declaration order; each parameter
pushes itself onto `m_parameters`. -/
def Normalize.memberInit : Normalize :=
  let x0 := ValueParameter.construct [] "Normalize_strength" (0 : Int)
  { m_parameters := x0.2, m_normalizeStrength := x0.1 }

/-- Method `Normalize::serialize`: the members named in its body, in that order. -/
def Normalize.serialize (ar : Archive) (s : Normalize) : Except Exn (Archive × Normalize) := do
  let r0 ← ValueParameter.serialize ar s.m_normalizeStrength
  pure (r0.1, { s with m_normalizeStrength := r0.2 })

/-- The parameters of a `Normalize` reached through `getParameters()`, in list order,
each with its name and current value. -/
def Normalize.parameters (s : Normalize) : List (String × ArchiveValue) :=
  [s.m_normalizeStrength.entry]

/-- Members of `class SubtractBG`: `m_parameters` of `ProcessBase`, then the parameters in
declaration order. -/
structure SubtractBG where
  m_parameters : List String
  m_edgeThreshold : ValueParameter Double

/-- Default member initializers of `SubtractBG`, run in declaration order; each parameter
pushes itself onto `m_parameters`. -/
def SubtractBG.memberInit : SubtractBG :=
  let x0 := ValueParameter.construct [] "Edge_threshold" (ValueInit.zero : Double)
  { m_parameters := x0.2, m_edgeThreshold := x0.1 }

/-- Method `SubtractBG::serialize`: the members named in its body, in that order. -/
def SubtractBG.serialize (ar : Archive) (s : SubtractBG) : Except Exn (Archive × SubtractBG) := do
  let r0 ← ValueParameter.serialize ar s.m_edgeThreshold
  pure (r0.1, { s with m_edgeThreshold := r0.2 })

/-- The parameters of a `SubtractBG` reached through `getParameters()`, in list order,
each with its name and current value. -/
def SubtractBG.parameters (s : SubtractBG) : List (String × ArchiveValue) :=
  [s.m_edgeThreshold.entry]

/-- Members of `class Canny`: `m_parameters` of `ProcessBase`, then the parameters in
declaration order. -/
structure Canny where
  m_parameters : List String
  m_lowThreshold : ValueParameter Double
  m_highThreshold : ValueParameter Double

/-- Default member initializers of `Canny`, run in declaration order; each parameter
pushes itself onto `m_parameters`. -/
def Canny.memberInit : Canny :=
  let x0 := ValueParameter.construct [] "Low_threshold" (ValueInit.zero : Double)
  let x1 := ValueParameter.construct x0.2 "High_threshold" (ValueInit.zero : Double)
  { m_parameters := x1.2, m_lowThreshold := x0.1, m_highThreshold := x1.1 }

/-- Method `Canny::serialize`: the members named in its body, in that order. -/
def Canny.serialize (ar : Archive) (s : Canny) : Except Exn (Archive × Canny) := do
  let r0 ← ValueParameter.serialize ar s.m_lowThreshold
  let r1 ← ValueParameter.serialize r0.1 s.m_highThreshold
  pure (r1.1, { s with m_lowThreshold := r0.2, m_highThreshold := r1.2 })

/-- The parameters of a `Canny` reached through `getParameters()`, in list order,
each with its name and current value. -/
def Canny.parameters (s : Canny) : List (String × ArchiveValue) :=
  [s.m_lowThreshold.entry, s.m_highThreshold.entry]

/-- Members of `class ClearBorder`: `m_parameters` of `ProcessBase`, then the parameters in
declaration order. -/
structure ClearBorder where
  m_parameters : List String
  m_borderWidth : ValueParameter Int

/-- Default member initializers of `ClearBorder`, run in declaration order; each parameter
pushes itself onto `m_parameters`. -/
def ClearBorder.memberInit : ClearBorder :=
  let x0 := ValueParameter.construct [] "Border_width" (0 : Int)
  { m_parameters := x0.2, m_borderWidth := x0.1 }

/-- Method `ClearBorder::serialize`: the members named in its body, in that order. -/
def ClearBorder.serialize (ar : Archive) (s : ClearBorder) : Except Exn (Archive × ClearBorder) := do
  let r0 ← ValueParameter.serialize ar s.m_borderWidth
  pure (r0.1, { s with m_borderWidth := r0.2 })

/-- The parameters of a `ClearBorder` reached through `getParameters()`, in list order,
each with its name and current value. -/
def ClearBorder.parameters (s : ClearBorder) : List (String × ArchiveValue) :=
  [s.m_borderWidth.entry]

/-- Members of `class PropFilter`: `m_parameters` of `ProcessBase`, then the parameters in
declaration order. -/
structure PropFilter where
  m_parameters : List String
  m_regionPropsTypes : EnumParameter Int
  m_lowerLimit : ValueParameter Double
  m_upperLimit : ValueParameter Double

/-- Default member initializers of `PropFilter`, run in declaration order; each parameter
pushes itself onto `m_parameters`. `Area` is the value of the enumerator
`matlab::regionPropTypes::Area`, declared in matlab_ext.h, which is not among the
sources. -/
def PropFilter.memberInit (Area : Int) : PropFilter :=
  let x0 := EnumParameter.construct [] "Regionprop types" (Area : Int)
  let x1 := ValueParameter.construct x0.2 "Lower_Limit" (ValueInit.zero : Double)
  let x2 := ValueParameter.construct x1.2 "Upper_Limit" (ValueInit.zero : Double)
  { m_parameters := x2.2, m_regionPropsTypes := x0.1, m_lowerLimit := x1.1, m_upperLimit := x2.1 }

/-- Method `PropFilter::serialize`: the members named in its body, in that order. -/
def PropFilter.serialize (ar : Archive) (s : PropFilter) : Except Exn (Archive × PropFilter) := do
  let r0 ← ValueParameter.serialize ar s.m_lowerLimit
  let r1 ← ValueParameter.serialize r0.1 s.m_upperLimit
  pure (r1.1, { s with m_lowerLimit := r0.2, m_upperLimit := r1.2 })

/-- The parameters of a `PropFilter` reached through `getParameters()`, in list order,
each with its name and current value. -/
def PropFilter.parameters (s : PropFilter) : List (String × ArchiveValue) :=
  [s.m_regionPropsTypes.entry, s.m_lowerLimit.entry, s.m_upperLimit.entry]

/-! ## DataContainer (datacontainer.h is not among the sources)

Only the tests of `DataContainer` are present (`tst/catch_datacontainer.cpp`); the
container and its records are modelled from the specification, sections 3 and 4.1. -/

/-- Modelled from the spec: the field identifiers of namespace `data` (datacontainer.h is
missing), the sixteen fields the tests name, which the mask `0xffff` of the tests
enables together. -/
inductive DataFlag where
  | Area
  | BoundingBox
  | Centroid
  | Circularity
  | Eccentricity
  | Frame
  | GradientScore
  | Inlet
  | Outlet
  | Label
  | Major_axis
  | Minor_axis
  | Solidity
  | Symmetry
  | Perimeter
  | PixelIdxList
  deriving DecidableEq, Repr

/-- Modelled from the spec: the mask bit of a field (datacontainer.h is missing); one bit
per field, in the order in which the tests list the fields. -/
def DataFlag.bit : DataFlag → Nat
  | .Area => 1 <<< 0
  | .BoundingBox => 1 <<< 1
  | .Centroid => 1 <<< 2
  | .Circularity => 1 <<< 3
  | .Eccentricity => 1 <<< 4
  | .Frame => 1 <<< 5
  | .GradientScore => 1 <<< 6
  | .Inlet => 1 <<< 7
  | .Outlet => 1 <<< 8
  | .Label => 1 <<< 9
  | .Major_axis => 1 <<< 10
  | .Minor_axis => 1 <<< 11
  | .Solidity => 1 <<< 12
  | .Symmetry => 1 <<< 13
  | .Perimeter => 1 <<< 14
  | .PixelIdxList => 1 <<< 15

/-- Modelled from the spec: the value types of section 3 (numeric, pair, rectangle,
pixel-set), with `bool` added for the ill-typed argument of the tests. -/
inductive ValueType where
  | double
  | int
  | intPair
  | rect
  | pixelSet
  | bool
  deriving DecidableEq, Repr

/-- Modelled from the spec: the declared type of each field (datacontainer.h is missing),
as the tests read the fields with `getValue<T>`; `PixelIdxList` is the pixel set. -/
def DataFlag.declaredType : DataFlag → ValueType
  | .Area => .double
  | .BoundingBox => .rect
  | .Centroid => .intPair
  | .Circularity => .double
  | .Eccentricity => .double
  | .Frame => .int
  | .GradientScore => .double
  | .Inlet => .int
  | .Outlet => .int
  | .Label => .int
  | .Major_axis => .double
  | .Minor_axis => .double
  | .Solidity => .double
  | .Symmetry => .double
  | .Perimeter => .double
  | .PixelIdxList => .pixelSet

/-- Modelled from the spec: a value handed to `setValue` or returned by `getValue`
(datacontainer.h is missing): a `double`, an `int`, a `std::pair<int, int>`, a `cv::Rect`
(x, y, width, height), a list of pixel positions, or a `bool`. -/
inductive Value where
  | double (d : Double)
  | int (i : Int)
  | intPair (first second : Int)
  | rect (x y width height : Int)
  | pixelSet (pixels : List (Int × Int))
  | bool (b : Bool)
  deriving DecidableEq, Repr

/-- Modelled from the spec: the type of a value. -/
def Value.type : Value → ValueType
  | .double _ => .double
  | .int _ => .int
  | .intPair _ _ => .intPair
  | .rect _ _ _ _ => .rect
  | .pixelSet _ => .pixelSet
  | .bool _ => .bool

/-- Modelled from the spec: the value-initialized value of a type, held by a field of a
new record until it is set. -/
def ValueType.init : ValueType → Value
  | .double => .double ValueInit.zero
  | .int => .int 0
  | .intPair => .intPair 0 0
  | .rect => .rect 0 0 0 0
  | .pixelSet => .pixelSet []
  | .bool => .bool false

/-- Modelled from the spec: the failures of section 7 for misuse of the feature store. -/
inductive DataError where
  | FieldNotEnabled
  | TypeMismatch
  deriving DecidableEq, Repr

/-- Modelled from the spec: whether a field is in a mask. -/
def DataFlag.enabledIn (f : DataFlag) (mask : Nat) : Prop :=
  mask &&& f.bit ≠ 0

instance (f : DataFlag) (mask : Nat) : Decidable (f.enabledIn mask) := by
  unfold DataFlag.enabledIn; infer_instance

/-- Modelled from the spec: a record (the record class of datacontainer.h is missing):
the mask of the owning store at the time the record was created, and the mapping from
field to value. -/
structure Record where
  m_dataFlags : Nat
  m_values : DataFlag → Value

/-- Modelled from the spec: the record `appendNew()` creates, with exactly the fields of
`mask`, each holding the value-initialized value of its declared type. -/
def Record.create (mask : Nat) : Record :=
  { m_dataFlags := mask, m_values := fun f => f.declaredType.init }

/-- Modelled from the spec: `Record.setValue(field, value)` fails with FieldNotEnabled if
`field` is not in the mask, with TypeMismatch if the type of `value` is not the declared
type of `field`, and otherwise stores `value` for `field`. The mask is tested first:
by section 8 a disabled field always fails with FieldNotEnabled. -/
def Record.setValue (r : Record) (field : DataFlag) (value : Value) :
    Except DataError Record :=
  if ¬ field.enabledIn r.m_dataFlags then .error .FieldNotEnabled
  else if value.type ≠ field.declaredType then .error .TypeMismatch
  else .ok { r with m_values := fun f => if f = field then value else r.m_values f }

/-- Modelled from the spec: `Record.getValue<T>(field)` has the failure modes of
`setValue` and returns the stored value. -/
def Record.getValue (r : Record) (T : ValueType) (field : DataFlag) : Except DataError Value :=
  if ¬ field.enabledIn r.m_dataFlags then .error .FieldNotEnabled
  else if T ≠ field.declaredType then .error .TypeMismatch
  else .ok (r.m_values field)

/-- Modelled from the spec: a run of `setValue` calls on one record, first call first,
stopping at the first failure. -/
def Record.setValues (r : Record) : List (DataFlag × Value) → Except DataError Record
  | [] => .ok r
  | (field, value) :: rest =>
    match r.setValue field value with
    | .ok r1 => r1.setValues rest
    | .error e => .error e

/-- Modelled from the spec: the feature store (class `DataContainer`, datacontainer.h is
missing): the active-field mask and the ordered sequence of records. -/
structure DataContainer where
  m_dataFlags : Nat
  m_data : List Record

/-- Modelled from the spec: the constructor `DataContainer(mask)`; the tests also
default-construct a container, which is `construct 0`. -/
def DataContainer.construct (mask : Nat) : DataContainer :=
  { m_dataFlags := mask, m_data := [] }

/-- Modelled from the spec: `setDataFlags(mask)` declares the fields of future records. -/
def DataContainer.setDataFlags (c : DataContainer) (mask : Nat) : DataContainer :=
  { c with m_dataFlags := mask }

/-- Modelled from the spec: `addDataFlag(field)` adds one field to the mask. -/
def DataContainer.addDataFlag (c : DataContainer) (field : DataFlag) : DataContainer :=
  { c with m_dataFlags := c.m_dataFlags ||| field.bit }

/-- Modelled from the spec: `appendNew()` appends a record with exactly the fields of the
current mask and returns the container together with the index of the new record. -/
def DataContainer.appendNew (c : DataContainer) : DataContainer × Nat :=
  ({ c with m_data := c.m_data ++ [Record.create c.m_dataFlags] }, c.m_data.length)

/-- Modelled from the spec: `container[i]`, the record at index `i`. -/
def DataContainer.index (c : DataContainer) (i : Nat) : Option Record :=
  c.m_data.get? i

/-! ## String streams and the introspection interface (parameter.h) -/

/-- A `std::stringstream` as the reading side sees it: the characters not yet read and the
state bits `eofbit` and `failbit` (nothing in the code sets `badbit`). -/
structure StringStream where
  buf : List Char
  eofbit : Bool
  failbit : Bool
  deriving DecidableEq, Repr

/-- Member `ParameterBase::getOptions()`: a fresh stream into which every entry of
`m_options` is written, each followed by `SPLITCHAR`. -/
def ParameterBase.getOptions (m_options : List String) : StringStream :=
  { buf := (m_options.map (fun i => i.toList ++ [SPLITCHAR])).flatten,
    eofbit := false, failbit := false }

/-- Member `getOptions()` of a numeric parameter, inherited from `ParameterBase`. -/
def ValueParameter.getOptions {T : Type} (p : ValueParameter T) : StringStream :=
  ParameterBase.getOptions p.m_options

/-- Member `getOptions()` of an enum parameter, inherited from `ParameterBase`. -/
def EnumParameter.getOptions {T : Type} [LT T] (p : EnumParameter T) : StringStream :=
  ParameterBase.getOptions p.m_options

/-- Function `std::getline(s, str, delim)`. When the stream is not `good()` the sentry
sets `failbit` and `str` keeps its old content. Otherwise `str` is erased and characters
are moved into it up to the delimiter, which is read and dropped; running into the end of
the stream sets `eofbit`, and `failbit` too when nothing at all was read. -/
def getline (s : StringStream) (str : String) (delim : Char) : StringStream × String :=
  if s.eofbit ∨ s.failbit then
    ({ s with failbit := true }, str)
  else
    match s.buf.dropWhile (fun c => c ≠ delim) with
    | [] =>
      ({ buf := [], eofbit := true,
         failbit := (s.buf.takeWhile (fun c => c ≠ delim)).isEmpty },
       String.mk (s.buf.takeWhile (fun c => c ≠ delim)))
    | _ :: rest =>
      ({ buf := rest, eofbit := false, failbit := false },
       String.mk (s.buf.takeWhile (fun c => c ≠ delim)))

/-- Function `getParameterStreamToken(s, str)`: `std::getline(s, str, SPLITCHAR)`. -/
def getParameterStreamToken (s : StringStream) (str : String) : StringStream × String :=
  getline s str SPLITCHAR

/-- The `while (!str.empty())` loop of the free function `getOptions`: each round pushes
`str` and reads the next token. The first argument bounds the number of times the loop
condition is evaluated; `none` means the bound was reached with the loop still running. -/
def getOptionsLoop : Nat → StringStream → String → List String →
    Option (StringStream × List String)
  | 0, _, _, _ => none
  | fuel + 1, stream, str, options =>
    if str ≠ "" then
      getOptionsLoop fuel (getParameterStreamToken stream str).1
        (getParameterStreamToken stream str).2 (options ++ [str])
    else
      some (stream, options)

/-- Free function `getOptions(stream, options)`: a first token is read into an empty
`str`, then the loop runs. -/
def getOptions (fuel : Nat) (stream : StringStream) (options : List String) :
    Option (StringStream × List String) :=
  getOptionsLoop fuel (getParameterStreamToken stream "").1
    (getParameterStreamToken stream "").2 options

/-! ## Texts that begin with a number, and the template argument `double` -/

/-- A text begins with an `int` number when, after leading white space and at most one
sign, a decimal digit comes next. -/
def beginsWithInteger (s : String) : Prop :=
  ∃ (ws sign : List Char) (d : Char) (rest : List Char),
    s.toList = ws ++ sign ++ d :: rest ∧ (∀ c ∈ ws, isspace c = true) ∧
      (sign = [] ∨ sign = ['-'] ∨ sign = ['+']) ∧ isdigit d = true

/-- Function `tolower` on the letters `A` to `Z`. -/
def tolower (c : Char) : Char :=
  if 65 ≤ c.toNat ∧ c.toNat ≤ 90 then Char.ofNat (c.toNat + 32) else c

/-- Whether `strtod` finds a number at the start of `s`, white space and sign already
removed: a decimal or hexadecimal numeral starts with a digit, or with a point followed
by a digit; besides numerals only `inf` (also the start of `infinity`) and `nan`, in
either case of each letter, are accepted. -/
def startsFloatingNumeral (s : List Char) : Bool :=
  match s with
  | [] => false
  | c :: r =>
    isdigit c ||
    (c == '.' && (match r with
      | d :: _ => isdigit d
      | [] => false)) ||
    ((c :: r).take 3).map tolower == ['i', 'n', 'f'] ||
    ((c :: r).take 3).map tolower == ['n', 'a', 'n']

/-- Function `std::stod(str)`: leading white space is skipped and one optional sign is
read; when no number starts there nothing is converted and `std::invalid_argument` is
thrown. The value of a number that does start there (floating-point rounding, and
`std::out_of_range` when it does not fit) is left to the parameter `strtod`. -/
def stod (strtod : List Char → Except Exn Double) (str : String) : Except Exn Double :=
  match str.toList.dropWhile isspace with
  | [] => .error (.invalid_argument "stod")
  | c :: r =>
    if startsFloatingNumeral (if c = '-' ∨ c = '+' then r else c :: r) then strtod (c :: r)
    else .error (.invalid_argument "stod")

/-- The instantiation `T = double`: `setValueStr` takes the `stod` branch. The rendering
`std::to_string(double)` and the value conversion of `strtod` are parameters;
`typeid(double).name()` is `"d"` under the Itanium ABI. -/
def doubleNumeric (to_string : Double → String) (strtod : List Char → Except Exn Double) :
    Numeric Double :=
  { name := "d", zero := ValueInit.zero, to_string := to_string, fromStr := stod strtod }

/-- A text begins with a `double` number when, after leading white space and at most one
sign, there comes a digit, a point followed by a digit, or one of the words `inf` and
`nan` in either case of each letter. -/
def beginsWithFloating (s : String) : Prop :=
  ∃ (ws sign body : List Char),
    s.toList = ws ++ sign ++ body ∧ (∀ c ∈ ws, isspace c = true) ∧
      (sign = [] ∨ sign = ['-'] ∨ sign = ['+']) ∧
      ((∃ d rest, body = d :: rest ∧ isdigit d = true) ∨
       (∃ d rest, body = '.' :: d :: rest ∧ isdigit d = true) ∨
       (∃ a b c rest, body = a :: b :: c :: rest ∧
          ([tolower a, tolower b, tolower c] = ['i', 'n', 'f'] ∨
           [tolower a, tolower b, tolower c] = ['n', 'a', 'n'])))

/-! ## Display names (process.h) -/

/-- Function `ct_strlen(s)`: the number of characters before the terminator. A C string is
given by its characters; the terminator is the first NUL, or the end of the list. -/
def ct_strlen : List Char → Nat
  | [] => 0
  | c :: s => if c = Char.ofNat 0 then 0 else 1 + ct_strlen s

/-- The `for` loop of `checkDisplayName`, at index `i` with `todo` indices left before
`ct_strlen(name)` is reached: a space at `name[i]` returns `false`. -/
def checkDisplayNameLoop (name : List Char) : Nat → Nat → Bool
  | 0, _ => true
  | todo + 1, i =>
    if name.getD i (Char.ofNat 0) = ' ' then false
    else checkDisplayNameLoop name todo (i + 1)

/-- Function `checkDisplayName(name)`: the loop over `i = 0, ..., ct_strlen(name) - 1`. -/
def checkDisplayName (name : List Char) : Bool :=
  checkDisplayNameLoop name (ct_strlen name) 0

/-- The parameter display names declared by the built-in steps `Morph`, `Binarize`,
`Normalize`, `SubtractBG`, `Canny`, `ClearBorder` and `PropFilter`, as their member
initializers register them. -/
def declaredDisplayNames : List String :=
  Morph.memberInit.m_parameters ++ Binarize.memberInit.m_parameters ++
    Normalize.memberInit.m_parameters ++ SubtractBG.memberInit.m_parameters ++
    Canny.memberInit.m_parameters ++ ClearBorder.memberInit.m_parameters ++
    (PropFilter.memberInit 0).m_parameters

/-! ## Experiment (experiment.h)

The class `Experiment` and its `reset()` are in the sources; the queue type, the helper
`clearCamel` (helper.h) and the class `ImageWriter` (imagewriter.h) are not, and are
modelled from the specification, sections 3, 4.5 and 6. -/

/-- Modelled from the spec: a frame (`cv::Mat`, OpenCV is missing), opaque to the session
and told apart by its index. -/
structure Mat where
  index : Nat
  deriving DecidableEq, Repr

/-- Modelled from the spec: the frame queue `moodycamel::BlockingReaderWriterQueue<cv::Mat>`
(external/readerwriterqueue is missing), a FIFO channel: the frames pushed and not yet
popped, oldest first. -/
structure BlockingReaderWriterQueue where
  frames : List Mat
  deriving DecidableEq, Repr

/-- Modelled from the spec: one non-blocking pop (the queue type is missing): the oldest
frame is removed; the flag tells whether there was one. -/
def BlockingReaderWriterQueue.pop (q : BlockingReaderWriterQueue) :
    Bool × BlockingReaderWriterQueue :=
  match q.frames with
  | [] => (false, q)
  | _ :: rest => (true, { frames := rest })

/-- Modelled from the spec: the draining of `clearCamel` over the frames still queued:
pop after pop until a pop finds nothing. -/
def clearCamelFrames : List Mat → BlockingReaderWriterQueue
  | [] => { frames := [] }
  | _ :: rest => clearCamelFrames rest

/-- Modelled from the spec: `clearCamel(queue)` (helper.h is missing), which "drains and
clears" a queue. -/
def clearCamel (queue : BlockingReaderWriterQueue) : BlockingReaderWriterQueue :=
  clearCamelFrames queue.frames

/-- Modelled from the spec: a write buffer (class `ImageWriter`, imagewriter.h is
missing): the frames pushed for persisting and not yet written. -/
structure ImageWriter where
  pending : List Mat
  deriving DecidableEq, Repr

/-- Modelled from the spec: `ImageWriter::push(frame)` queues a frame for writing. -/
def ImageWriter.push (w : ImageWriter) (frame : Mat) : ImageWriter :=
  { pending := w.pending ++ [frame] }

/-- Modelled from the spec: `ImageWriter::clear()` discards the pending work. -/
def ImageWriter.clear (_w : ImageWriter) : ImageWriter :=
  { pending := [] }

/-- Members of `class Experiment`. -/
structure Experiment where
  inlet : Int
  outlet : Int
  cellNum : Int
  processed : BlockingReaderWriterQueue
  raw : BlockingReaderWriterQueue
  writeBuffer_raw : ImageWriter
  writeBuffer_processed : ImageWriter
  intensity_threshold : Double
  data : List DataContainer

/-- Method `Experiment::reset()`: the five calls of its body, in order. -/
def Experiment.reset (e : Experiment) : Experiment :=
  let e1 := { e with processed := clearCamel e.processed }
  let e2 := { e1 with raw := clearCamel e1.raw }
  let e3 := { e2 with writeBuffer_processed := e2.writeBuffer_processed.clear }
  let e4 := { e3 with writeBuffer_raw := e3.writeBuffer_raw.clear }
  { e4 with data := [] }

/-- A session used as concrete input: three raw frames, two processed frames, frames
pending in both write buffers and one data container holding a record. -/
def busyExperiment : Experiment :=
  { inlet := 80, outlet := 210, cellNum := 3,
    processed := { frames := [⟨0⟩, ⟨1⟩] },
    raw := { frames := [⟨2⟩, ⟨3⟩, ⟨4⟩] },
    writeBuffer_raw := { pending := [⟨0⟩, ⟨1⟩] },
    writeBuffer_processed := { pending := [⟨0⟩] },
    intensity_threshold := ValueInit.zero,
    data := [(DataContainer.construct 0xffff).appendNew.1] }

/-- The `double` value `0.5`. -/
def double_0_5 : Double := ⟨0x3FE0000000000000⟩

/-- The `double` value `1.0`. -/
def double_1_0 : Double := ⟨0x3FF0000000000000⟩

/-- A quiet NaN of type `double`. -/
def double_NaN : Double := ⟨0x7FF8000000000000⟩

/-- A `double` parameter used as concrete input: `Binarize::m_edgeThreshold` in the state
that `setRange(0.0, 1.0)` leaves, apart from `m_options`, which would hold the texts of
the two bounds. -/
def edgeThresholdParameter : ValueParameter Double :=
  { (ValueParameter.construct [] "Edge_threshold" (ValueInit.zero : Double)).1 with
    m_isInitialized := RANGE_SET, m_range := (ValueInit.zero, double_1_0) }

/-- An option map used as concrete input: three enumerators `0`, `1`, `2` of
`cv::MorphTypes` with distinct labels. -/
def morphOptions : StdMap Int :=
  ⟨[(0, "Erode"), (1, "Dilate"), (2, "Open")], by decide⟩

/-- An enum parameter used as concrete input: `Morph::m_morphType` after
`setOptions(morphOptions)` and `setValue(1)`. -/
def morphTypeParameter : EnumParameter Int :=
  (EnumParameter.construct [] "Morphology_type" 0).1.run
    [EnumOp.setOptions morphOptions, EnumOp.setValue 1]

/-- The `setValue` calls of the test "dataFlag and values (multiple at once)" after the
first one, in order; a `double` literal is given by its bit pattern. -/
def testSetsAfterArea : List (DataFlag × Value) :=
  [(.BoundingBox, (.rect 0 5 10 15)),
   (.Centroid, (.intPair 11 22)),
   (.Circularity, (.double ⟨0x3FE1604189374BC7⟩)),
   (.Eccentricity, (.double ⟨0x400370A3D70A3D71⟩)),
   (.Frame, (.int 5)),
   (.GradientScore, (.double ⟨0x4014051EB851EB85⟩)),
   (.Inlet, (.int 80)),
   (.Outlet, (.int 180)),
   (.Label, (.int 21950)),
   (.Major_axis, (.double ⟨0x40155E353F7CED91⟩)),
   (.Minor_axis, (.double ⟨0x400B70A3D70A3D71⟩)),
   (.Solidity, (.double ⟨0x3FEFD566CF41F213⟩)),
   (.Symmetry, (.double ⟨0x404178B439581062⟩)),
   (.Perimeter, (.double ⟨0x400B76C8B4395810⟩))]

/-- The `double` literal `0.254` of the tests. -/
def double_0_254 : Double := ⟨0x3FD04189374BC6A8⟩

/-- The `double` literal `-143.395834` of the tests. -/
def double_neg_143_395834 : Double := ⟨0xC061ECAAAC1094A3⟩

/-- The mask `data::Area | data::Circularity | data::Inlet` of the test "illegal calls". -/
def testMaskIllegalCalls : Nat :=
  DataFlag.Area.bit ||| DataFlag.Circularity.bit ||| DataFlag.Inlet.bit

/-! # Theorems -/

/-! ## Initialization bits -/

theorem and_RANGE_SET_ne_zero (m : Nat) : m &&& RANGE_SET ≠ 0 ↔ m.testBit 0 = true := by
  have h := Nat.and_two_pow m 0
  simp only [pow_zero, mul_one] at h
  unfold RANGE_SET
  simp only [Nat.shiftLeft_zero, h]
  cases m.testBit 0 <;> simp

theorem and_DEFAULT_SET_ne_zero (m : Nat) : m &&& DEFAULT_SET ≠ 0 ↔ m.testBit 1 = true := by
  have h := Nat.and_two_pow m 1
  simp only [pow_one] at h
  have h2 : DEFAULT_SET = 2 := rfl
  rw [h2, h]
  cases m.testBit 1 <;> simp

theorem testBit_or_RANGE_SET (m : Nat) :
    ((m ||| RANGE_SET).testBit 0 = true) ∧ ((m ||| RANGE_SET).testBit 1 = m.testBit 1) := by
  have h0 : RANGE_SET.testBit 0 = true := by decide
  have h1 : RANGE_SET.testBit 1 = false := by decide
  simp only [Nat.testBit_or, h0, h1, Bool.or_true, Bool.or_false, and_self]

theorem testBit_or_DEFAULT_SET (m : Nat) :
    ((m ||| DEFAULT_SET).testBit 1 = true) ∧ ((m ||| DEFAULT_SET).testBit 0 = m.testBit 0) := by
  have h0 : DEFAULT_SET.testBit 0 = false := by decide
  have h1 : DEFAULT_SET.testBit 1 = true := by decide
  simp only [Nat.testBit_or, h0, h1, Bool.or_true, Bool.or_false, and_self]

/-! ## ValueParameter: effect of each call on the members -/

namespace ValueParameter

variable {T : Type}

theorem setRange_isInitialized [Numeric T] (p : ValueParameter T) (a b : T) :
    (p.setRange a b).m_isInitialized = p.m_isInitialized ||| RANGE_SET := rfl

theorem setRange_range [Numeric T] (p : ValueParameter T) (a b : T) :
    (p.setRange a b).m_range = (a, b) := rfl

theorem setRange_val [Numeric T] (p : ValueParameter T) (a b : T) :
    (p.setRange a b).m_val = p.m_val := rfl

theorem setValue_isInitialized [LinearOrder T] (p : ValueParameter T) (v : T) :
    (p.setValue v).2.m_isInitialized = p.m_isInitialized ||| DEFAULT_SET := by
  by_cases h : v ≥ p.m_range.1 ∧ v ≤ p.m_range.2 <;> simp [setValue, h]

theorem setValue_range [LinearOrder T] (p : ValueParameter T) (v : T) :
    (p.setValue v).2.m_range = p.m_range := by
  by_cases h : v ≥ p.m_range.1 ∧ v ≤ p.m_range.2 <;> simp [setValue, h]

theorem setValueStr_isInitialized [Numeric T] (p : ValueParameter T) (s : String) :
    (p.setValueStr s).2.m_isInitialized = p.m_isInitialized := by
  unfold setValueStr
  split <;> rfl

theorem setValueStr_range [Numeric T] (p : ValueParameter T) (s : String) :
    (p.setValueStr s).2.m_range = p.m_range := by
  unfold setValueStr
  split <;> rfl

/-- The outcome of `setValue` is decided by the range test alone. -/
theorem setValue_ok_iff [LinearOrder T] (p : ValueParameter T) (v : T) :
    (p.setValue v).1 = .ok () ↔ (p.m_range.1 ≤ v ∧ v ≤ p.m_range.2) := by
  by_cases h : v ≥ p.m_range.1 ∧ v ≤ p.m_range.2
  · have h2 : p.m_range.1 ≤ v ∧ v ≤ p.m_range.2 := h
    simp [setValue, h2]
  · have h2 : ¬ (p.m_range.1 ≤ v ∧ v ≤ p.m_range.2) := h
    simp only [setValue, h, not_false_eq_true, if_true, h2, iff_false]
    intro hc
    cases hc

theorem setValue_error_iff [LinearOrder T] (p : ValueParameter T) (v : T) :
    (p.setValue v).1 = .error (.runtime_error msgOutsideRange) ↔
      (v < p.m_range.1 ∨ p.m_range.2 < v) := by
  by_cases h : v ≥ p.m_range.1 ∧ v ≤ p.m_range.2
  · have h3 : ¬ (v < p.m_range.1 ∨ p.m_range.2 < v) := by
      rintro (hc | hc)
      · exact absurd h.1 (not_le.mpr hc)
      · exact absurd h.2 (not_le.mpr hc)
    simp only [setValue, h, not_true_eq_false, if_false, h3, iff_false]
    intro hc
    cases hc
  · have h3 : v < p.m_range.1 ∨ p.m_range.2 < v := by
      by_contra hc
      push_neg at hc
      exact h ⟨hc.1, hc.2⟩
    simp only [setValue, h, not_false_eq_true, if_true, h3]

theorem setValue_ok_val [LinearOrder T] (p : ValueParameter T) (v : T)
    (h : (p.setValue v).1 = .ok ()) : (p.setValue v).2.m_val = v := by
  have hr := (setValue_ok_iff p v).mp h
  unfold setValue
  simp [hr]

theorem getValue_ok_iff (p : ValueParameter T) (x : T) :
    p.getValue = .ok x ↔
      (p.m_isInitialized.testBit 0 = true ∧ p.m_isInitialized.testBit 1 = true ∧
        p.m_val = x) := by
  have h0 := and_RANGE_SET_ne_zero p.m_isInitialized
  have h1 := and_DEFAULT_SET_ne_zero p.m_isInitialized
  unfold getValue
  by_cases a : p.m_isInitialized &&& RANGE_SET = 0
  · have : ¬ p.m_isInitialized.testBit 0 = true := fun hc => (h0.mpr hc) a
    simp [a, this]
  · by_cases b : p.m_isInitialized &&& DEFAULT_SET = 0
    · have : ¬ p.m_isInitialized.testBit 1 = true := fun hc => (h1.mpr hc) b
      simp [a, b, this]
    · simp [a, b, h0.mp a, h1.mp b]

theorem getValue_error (p : ValueParameter T)
    (h : ¬ (p.m_isInitialized.testBit 0 = true ∧ p.m_isInitialized.testBit 1 = true)) :
    ∃ e, p.getValue = .error e ∧ e.isNotInitialized := by
  have h0 := and_RANGE_SET_ne_zero p.m_isInitialized
  have h1 := and_DEFAULT_SET_ne_zero p.m_isInitialized
  unfold getValue
  by_cases a : p.m_isInitialized &&& RANGE_SET = 0
  · exact ⟨_, by simp [a], Or.inl rfl⟩
  · by_cases b : p.m_isInitialized &&& DEFAULT_SET = 0
    · exact ⟨_, by simp [a, b], Or.inr rfl⟩
    · exact absurd ⟨h0.mp a, h1.mp b⟩ h

theorem run_nil [LinearOrder T] [Numeric T] (p : ValueParameter T) : p.run [] = p := rfl

theorem run_cons [LinearOrder T] [Numeric T] (p : ValueParameter T) (op : ValueOp T)
    (ops : List (ValueOp T)) : p.run (op :: ops) = (p.step op).run ops := rfl

theorem step_bit0 [LinearOrder T] [Numeric T] (p : ValueParameter T) (op : ValueOp T) :
    (p.step op).m_isInitialized.testBit 0 = true ↔
      (p.m_isInitialized.testBit 0 = true ∨ ∃ a b, op = ValueOp.setRange a b) := by
  cases op with
  | setModifiable val => simp [step, setModifiable]
  | setRange a b => simp [step, setRange_isInitialized, (testBit_or_RANGE_SET _).1]
  | setValue v => simp [step, setValue_isInitialized, (testBit_or_DEFAULT_SET _).2]
  | setValueStr s => simp [step, setValueStr_isInitialized]

theorem step_bit1 [LinearOrder T] [Numeric T] (p : ValueParameter T) (op : ValueOp T) :
    (p.step op).m_isInitialized.testBit 1 = true ↔
      (p.m_isInitialized.testBit 1 = true ∨ ∃ v, op = ValueOp.setValue v) := by
  cases op with
  | setModifiable val => simp [step, setModifiable]
  | setRange a b => simp [step, setRange_isInitialized, (testBit_or_RANGE_SET _).2]
  | setValue v => simp [step, setValue_isInitialized, (testBit_or_DEFAULT_SET _).1]
  | setValueStr s => simp [step, setValueStr_isInitialized]

theorem run_bit0 [LinearOrder T] [Numeric T] (ops : List (ValueOp T)) :
    ∀ p : ValueParameter T, (p.run ops).m_isInitialized.testBit 0 = true ↔
      (p.m_isInitialized.testBit 0 = true ∨ ValueOp.calledSetRange ops) := by
  induction ops with
  | nil => intro p; simp [run_nil, ValueOp.calledSetRange]
  | cons op ops ih =>
    intro p
    rw [run_cons, ih, step_bit0]
    unfold ValueOp.calledSetRange
    constructor
    · rintro ((h | ⟨a, b, h⟩) | ⟨a, b, h⟩)
      · exact Or.inl h
      · exact Or.inr ⟨a, b, by simp [h]⟩
      · exact Or.inr ⟨a, b, List.mem_cons_of_mem _ h⟩
    · rintro (h | ⟨a, b, h⟩)
      · exact Or.inl (Or.inl h)
      · rcases List.mem_cons.mp h with h | h
        · exact Or.inl (Or.inr ⟨a, b, h.symm⟩)
        · exact Or.inr ⟨a, b, h⟩

theorem run_bit1 [LinearOrder T] [Numeric T] (ops : List (ValueOp T)) :
    ∀ p : ValueParameter T, (p.run ops).m_isInitialized.testBit 1 = true ↔
      (p.m_isInitialized.testBit 1 = true ∨ ValueOp.calledSetValue ops) := by
  induction ops with
  | nil => intro p; simp [run_nil, ValueOp.calledSetValue]
  | cons op ops ih =>
    intro p
    rw [run_cons, ih, step_bit1]
    unfold ValueOp.calledSetValue
    constructor
    · rintro ((h | ⟨a, h⟩) | ⟨a, h⟩)
      · exact Or.inl h
      · exact Or.inr ⟨a, by simp [h]⟩
      · exact Or.inr ⟨a, List.mem_cons_of_mem _ h⟩
    · rintro (h | ⟨a, h⟩)
      · exact Or.inl (Or.inl h)
      · rcases List.mem_cons.mp h with h | h
        · exact Or.inl (Or.inr ⟨a, h.symm⟩)
        · exact Or.inr ⟨a, h⟩

/-- Calls other than `setRange` leave the range as it is. -/
theorem run_range [LinearOrder T] [Numeric T] (ops : List (ValueOp T)) :
    ∀ p : ValueParameter T, (∀ a b, ValueOp.setRange a b ∉ ops) →
      (p.run ops).m_range = p.m_range := by
  induction ops with
  | nil => intro p _; rfl
  | cons op ops ih =>
    intro p h
    rw [run_cons, ih _ (fun a b hc => h a b (List.mem_cons_of_mem _ hc))]
    cases op with
    | setModifiable val => rfl
    | setRange a b => exact absurd (List.mem_cons_self _ _) (h a b)
    | setValue v => exact setValue_range p v
    | setValueStr s => exact setValueStr_range p s

end ValueParameter

/-! ## EnumParameter: effect of each call on the members -/

namespace EnumParameter

variable {T : Type} [LinearOrder T]

theorem enum_getValue_ok_iff (p : EnumParameter T) (x : T) :
    p.getValue = .ok x ↔
      (p.m_isInitialized.testBit 0 = true ∧ p.m_isInitialized.testBit 1 = true ∧
        p.m_val = x) := by
  have h0 := and_RANGE_SET_ne_zero p.m_isInitialized
  have h1 := and_DEFAULT_SET_ne_zero p.m_isInitialized
  unfold getValue
  by_cases a : p.m_isInitialized &&& RANGE_SET = 0
  · have : ¬ p.m_isInitialized.testBit 0 = true := fun hc => (h0.mpr hc) a
    simp [a, this]
  · by_cases b : p.m_isInitialized &&& DEFAULT_SET = 0
    · have : ¬ p.m_isInitialized.testBit 1 = true := fun hc => (h1.mpr hc) b
      simp [a, b, this]
    · simp [a, b, h0.mp a, h1.mp b]

theorem enum_getValue_error (p : EnumParameter T)
    (h : ¬ (p.m_isInitialized.testBit 0 = true ∧ p.m_isInitialized.testBit 1 = true)) :
    ∃ e, p.getValue = .error e ∧ e.isNotInitialized := by
  have h0 := and_RANGE_SET_ne_zero p.m_isInitialized
  have h1 := and_DEFAULT_SET_ne_zero p.m_isInitialized
  unfold getValue
  by_cases a : p.m_isInitialized &&& RANGE_SET = 0
  · exact ⟨_, by simp [a], Or.inl rfl⟩
  · by_cases b : p.m_isInitialized &&& DEFAULT_SET = 0
    · exact ⟨_, by simp [a, b], Or.inr rfl⟩
    · exact absurd ⟨h0.mp a, h1.mp b⟩ h

theorem enum_run_nil [TypeId T] (p : EnumParameter T) : p.run [] = p := rfl

theorem enum_run_cons [TypeId T] (p : EnumParameter T) (op : EnumOp T) (ops : List (EnumOp T)) :
    p.run (op :: ops) = (p.step op).run ops := rfl

theorem enum_step_bit0 [TypeId T] (p : EnumParameter T) (op : EnumOp T) :
    (p.step op).m_isInitialized.testBit 0 = true ↔
      (p.m_isInitialized.testBit 0 = true ∨ ∃ m, op = EnumOp.setOptions m) := by
  cases op with
  | setModifiable val => simp [step, setModifiable]
  | setOptions m =>
    simp [step, setOptions, updateOptions, (testBit_or_RANGE_SET _).1]
  | setValue v => simp [step, setValue, (testBit_or_DEFAULT_SET _).2]
  | setValueStr s => simp [step, setValueStr]

theorem enum_step_bit1 [TypeId T] (p : EnumParameter T) (op : EnumOp T) :
    (p.step op).m_isInitialized.testBit 1 = true ↔
      (p.m_isInitialized.testBit 1 = true ∨ ∃ v, op = EnumOp.setValue v) := by
  cases op with
  | setModifiable val => simp [step, setModifiable]
  | setOptions m =>
    simp [step, setOptions, updateOptions, (testBit_or_RANGE_SET _).2]
  | setValue v => simp [step, setValue, (testBit_or_DEFAULT_SET _).1]
  | setValueStr s => simp [step, setValueStr]

theorem enum_run_bit0 [TypeId T] (ops : List (EnumOp T)) :
    ∀ p : EnumParameter T, (p.run ops).m_isInitialized.testBit 0 = true ↔
      (p.m_isInitialized.testBit 0 = true ∨ EnumOp.calledSetOptions ops) := by
  induction ops with
  | nil => intro p; simp [enum_run_nil, EnumOp.calledSetOptions]
  | cons op ops ih =>
    intro p
    rw [enum_run_cons, ih, enum_step_bit0]
    unfold EnumOp.calledSetOptions
    constructor
    · rintro ((h | ⟨a, h⟩) | ⟨a, h⟩)
      · exact Or.inl h
      · exact Or.inr ⟨a, by simp [h]⟩
      · exact Or.inr ⟨a, List.mem_cons_of_mem _ h⟩
    · rintro (h | ⟨a, h⟩)
      · exact Or.inl (Or.inl h)
      · rcases List.mem_cons.mp h with h | h
        · exact Or.inl (Or.inr ⟨a, h.symm⟩)
        · exact Or.inr ⟨a, h⟩

theorem enum_run_bit1 [TypeId T] (ops : List (EnumOp T)) :
    ∀ p : EnumParameter T, (p.run ops).m_isInitialized.testBit 1 = true ↔
      (p.m_isInitialized.testBit 1 = true ∨ EnumOp.calledSetValue ops) := by
  induction ops with
  | nil => intro p; simp [enum_run_nil, EnumOp.calledSetValue]
  | cons op ops ih =>
    intro p
    rw [enum_run_cons, ih, enum_step_bit1]
    unfold EnumOp.calledSetValue
    constructor
    · rintro ((h | ⟨a, h⟩) | ⟨a, h⟩)
      · exact Or.inl h
      · exact Or.inr ⟨a, by simp [h]⟩
      · exact Or.inr ⟨a, List.mem_cons_of_mem _ h⟩
    · rintro (h | ⟨a, h⟩)
      · exact Or.inl (Or.inl h)
      · rcases List.mem_cons.mp h with h | h
        · exact Or.inl (Or.inr ⟨a, h.symm⟩)
        · exact Or.inr ⟨a, h⟩

end EnumParameter

/-! ## Decimal text of an int and its conversion back -/

theorem digitChar_toNat (d : Nat) (h : d < 10) : (digitChar d).toNat = 48 + d := by
  interval_cases d <;> rfl

theorem digitVal_digitChar (d : Nat) (h : d < 10) : digitVal (digitChar d) = d := by
  unfold digitVal
  rw [digitChar_toNat d h]
  omega

theorem isdigit_digitChar (d : Nat) (h : d < 10) : isdigit (digitChar d) = true := by
  unfold isdigit
  rw [digitChar_toNat d h]
  simp only [Bool.and_eq_true, decide_eq_true_eq]
  omega

theorem isdigit_not_isspace (c : Char) (h : isdigit c = true) : isspace c = false := by
  unfold isdigit at h
  unfold isspace
  simp only [Bool.and_eq_true, decide_eq_true_eq] at h
  simp only [Bool.or_eq_false_iff, decide_eq_false_iff_not, Bool.and_eq_false_iff]
  omega

theorem isdigit_ne_sign (c : Char) (h : isdigit c = true) : c ≠ '-' ∧ c ≠ '+' := by
  unfold isdigit at h
  simp only [Bool.and_eq_true, decide_eq_true_eq] at h
  constructor
  · rintro rfl
    have : ('-' : Char).toNat = 45 := rfl
    omega
  · rintro rfl
    have : ('+' : Char).toNat = 43 := rfl
    omega

theorem digitsValue_append_single (ds : List Char) (c : Char) :
    digitsValue (ds ++ [c]) = 10 * digitsValue ds + digitVal c := by
  simp [digitsValue, List.foldl_append]

theorem decimalAux_spec (fuel : Nat) : ∀ (n : Nat) (acc : List Char), n < fuel →
    ∃ ds : List Char, decimalAux fuel n acc = ds ++ acc ∧ ds ≠ [] ∧
      (∀ c ∈ ds, isdigit c = true) ∧ digitsValue ds = n := by
  induction fuel with
  | zero => intro n acc h; omega
  | succ fuel ih =>
    intro n acc h
    by_cases hn : n < 10
    · refine ⟨[digitChar n], by simp [decimalAux, hn], by simp, ?_, ?_⟩
      · intro c hc
        simp only [List.mem_singleton] at hc
        rw [hc]
        exact isdigit_digitChar n hn
      · simp [digitsValue, digitVal_digitChar n hn]
    · have hlt : n / 10 < fuel := by omega
      obtain ⟨ds, h1, _, h3, h4⟩ := ih (n / 10) (digitChar (n % 10) :: acc) hlt
      have hm : n % 10 < 10 := Nat.mod_lt _ (by decide)
      refine ⟨ds ++ [digitChar (n % 10)], ?_, by simp, ?_, ?_⟩
      · simp [decimalAux, hn, h1]
      · intro c hc
        rcases List.mem_append.mp hc with hc | hc
        · exact h3 c hc
        · simp only [List.mem_singleton] at hc
          rw [hc]
          exact isdigit_digitChar _ hm
      · rw [digitsValue_append_single, h4, digitVal_digitChar _ hm]
        omega

theorem decimal_spec (n : Nat) :
    decimal n ≠ [] ∧ (∀ c ∈ decimal n, isdigit c = true) ∧ digitsValue (decimal n) = n := by
  obtain ⟨ds, h1, h2, h3, h4⟩ := decimalAux_spec (n + 1) n [] (Nat.lt_succ_self n)
  have : decimal n = ds := by simp [decimal, h1]
  rw [this]
  exact ⟨h2, h3, h4⟩

theorem takeWhile_all (ds : List Char) (h : ∀ c ∈ ds, isdigit c = true) :
    ds.takeWhile isdigit = ds := by
  rw [List.takeWhile_eq_self_iff]
  exact h

theorem stoiDigits_decimal (neg : Bool) (n : Nat)
    (h : isInt (if neg then -(n : Int) else (n : Int))) :
    stoiDigits neg (decimal n) = .ok (if neg then -(n : Int) else (n : Int)) := by
  obtain ⟨h1, h2, h3⟩ := decimal_spec n
  unfold stoiDigits
  simp only [takeWhile_all _ h2, h1, if_false, h3]
  unfold isInt at h
  have : ¬ ((if neg then -(n : Int) else (n : Int)) < INT_MIN ∨
      (if neg then -(n : Int) else (n : Int)) > INT_MAX) := by
    rintro (hc | hc)
    · exact absurd h.1 (not_le.mpr hc)
    · exact absurd h.2 (not_le.mpr hc)
  simp only [this, if_false]

theorem stoi_to_string_int (v : Int) (h : isInt v) : stoi (to_string_int v) = .ok v := by
  obtain ⟨h1, h2, h3⟩ := decimal_spec v.natAbs
  by_cases hv : v < 0
  · have e : (if (true : Bool) then -((v.natAbs : Nat) : Int) else (v.natAbs : Int)) = v := by
      simp only [if_true]
      omega
    have key := stoiDigits_decimal true v.natAbs (by rw [e]; exact h)
    rw [e] at key
    have hs : isspace '-' = false := rfl
    simp only [stoi, to_string_int, hv, if_true, List.dropWhile_cons, hs]
    simpa using key
  · have e : (if (false : Bool) then -((v.natAbs : Nat) : Int) else (v.natAbs : Int)) = v := by
      simp only [Bool.false_eq_true, if_false]
      omega
    have key := stoiDigits_decimal false v.natAbs (by rw [e]; exact h)
    rw [e] at key
    simp only [stoi, to_string_int, hv, if_false]
    cases hd : decimal v.natAbs with
    | nil => exact absurd hd h1
    | cons c r =>
      have hc : isdigit c = true := h2 c (by rw [hd]; exact List.mem_cons_self _ _)
      have hsp := isdigit_not_isspace c hc
      have hsg := isdigit_ne_sign c hc
      rw [hd] at key
      show (match List.dropWhile isspace (c :: r) with
        | [] => Except.error (Exn.invalid_argument "stoi")
        | c :: r =>
          if c = '-' then stoiDigits true r
          else if c = '+' then stoiDigits false r
          else stoiDigits false (c :: r)) = Except.ok v
      rw [List.dropWhile_cons]
      simp only [hsp, hsg.1, hsg.2, if_false, Bool.false_eq_true]
      exact key

/-! ## The comparisons of `double` and `setValue` on a `double` parameter -/

theorem Double.le_eq_true_iff (a b : Double) :
    Double.le a b = true ↔ (a.isNaN = false ∧ b.isNaN = false ∧ a.key ≤ b.key) := by
  simp [Double.le, and_assoc]

theorem Double.lt_eq_true_iff (a b : Double) :
    Double.lt a b = true ↔ (a.isNaN = false ∧ b.isNaN = false ∧ a.key < b.key) := by
  simp [Double.lt, and_assoc]

/-- Away from NaN the order of `double` is total: `a <= b` fails exactly when `b < a`. -/
theorem Double.not_le_iff_lt (a b : Double) (ha : a.isNaN = false) (hb : b.isNaN = false) :
    ¬ (Double.le a b = true) ↔ Double.lt b a = true := by
  rw [Double.le_eq_true_iff, Double.lt_eq_true_iff]
  constructor
  · intro h
    refine ⟨hb, ha, ?_⟩
    by_contra hc
    exact h ⟨ha, hb, not_lt.mp hc⟩
  · rintro ⟨_, _, h⟩ ⟨_, _, hc⟩
    exact absurd hc (not_le.mpr h)

namespace ValueParameter

theorem setValue_double_ok_iff (p : ValueParameter Double) (v : Double) :
    (p.setValue_double v).1 = .ok () ↔
      (Double.le p.m_range.1 v = true ∧ Double.le v p.m_range.2 = true) := by
  by_cases h : Double.ge v p.m_range.1 = true ∧ Double.le v p.m_range.2 = true
  · have h2 : Double.le p.m_range.1 v = true ∧ Double.le v p.m_range.2 = true := h
    simp only [setValue_double, h, and_self, not_true_eq_false, if_false, h2]
  · have h2 : ¬ (Double.le p.m_range.1 v = true ∧ Double.le v p.m_range.2 = true) := h
    simp only [setValue_double, h, not_false_eq_true, if_true, h2, iff_false]
    intro hc
    cases hc

theorem setValue_double_error_iff (p : ValueParameter Double) (v : Double) :
    (p.setValue_double v).1 = .error (.runtime_error msgOutsideRange) ↔
      ¬ (Double.le p.m_range.1 v = true ∧ Double.le v p.m_range.2 = true) := by
  by_cases h : Double.ge v p.m_range.1 = true ∧ Double.le v p.m_range.2 = true
  · have h2 : Double.le p.m_range.1 v = true ∧ Double.le v p.m_range.2 = true := h
    simp only [setValue_double, h, and_self, not_true_eq_false, if_false, h2, iff_false]
    intro hc
    cases hc
  · have h2 : ¬ (Double.le p.m_range.1 v = true ∧ Double.le v p.m_range.2 = true) := h
    simp only [setValue_double, h, not_false_eq_true, if_true, h2]

theorem setValue_double_isInitialized (p : ValueParameter Double) (v : Double) :
    (p.setValue_double v).2.m_isInitialized = p.m_isInitialized ||| DEFAULT_SET := by
  by_cases h : Double.ge v p.m_range.1 = true ∧ Double.le v p.m_range.2 = true <;>
    simp [setValue_double, h]

theorem setValue_double_range (p : ValueParameter Double) (v : Double) :
    (p.setValue_double v).2.m_range = p.m_range := by
  by_cases h : Double.ge v p.m_range.1 = true ∧ Double.le v p.m_range.2 = true <;>
    simp [setValue_double, h]

theorem setValue_double_val (p : ValueParameter Double) (v : Double) :
    ((p.setValue_double v).1 = .ok () → (p.setValue_double v).2.m_val = v) ∧
    ((p.setValue_double v).1 ≠ .ok () → (p.setValue_double v).2.m_val = p.m_val) := by
  by_cases h : Double.ge v p.m_range.1 = true ∧ Double.le v p.m_range.2 = true
  · simp [setValue_double, h]
  · simp [setValue_double, h]

end ValueParameter

/-! ## Claims on the numeric range check and on initialization -/

/-- C1 (as stated, at two concrete inputs): after `setRange(5, 3)` on an `int` parameter
the call `setValue(5)`, the value `low` itself, is rejected as out of range; and on a
`double` parameter with range `[0.0, 1.0]` the call `setValue(NaN)` is rejected although
neither `NaN < 0.0` nor `NaN > 1.0` holds. -/
theorem setValue_low_rejected_when_low_gt_high :
    ((((ValueParameter.construct [] "Border_width" (0 : Int)).1.setRange 5 3).setValue 5).1
      = .error (.runtime_error msgOutsideRange)) ∧
    (edgeThresholdParameter.m_range = (ValueInit.zero, double_1_0) ∧
      (edgeThresholdParameter.setValue_double double_NaN).1
        = .error (.runtime_error msgOutsideRange) ∧
      Double.lt double_NaN ValueInit.zero = false ∧
      Double.gt double_NaN double_1_0 = false) :=
  ⟨rfl, rfl, rfl, rfl, rfl⟩

/-- C1 (amended): on a numeric parameter of a totally ordered value type (`int`) or of type
`double`, whose latest `setRange` was `setRange(low, high)`: `setValue(v)` succeeds iff
`low ≤ v` and `v ≤ high` and fails with the out-of-range error otherwise. For a totally
ordered type, and for `double` when none of `v`, `low`, `high` is a NaN, it fails iff
`v < low` or `v > high`; a NaN among the three makes it fail, also when `v` is the NaN and
so neither `v < low` nor `v > high`. When `low ≤ high`, `setValue(low)` and
`setValue(high)` succeed; and after a successful `setValue(v)`, `getValue()` returns `v`. -/
theorem setValue_checks_latest_range :
    (∀ (T : Type) [LinearOrder T] [Numeric T] (p : ValueParameter T) (low high v : T)
        (ops : List (ValueOp T)), (∀ a b, ValueOp.setRange a b ∉ ops) →
      (((((p.setRange low high).run ops).setValue v).1
          = .error (.runtime_error msgOutsideRange)) ↔ (v < low ∨ v > high)) ∧
      (((((p.setRange low high).run ops).setValue v).1 = .ok ()) ↔ (low ≤ v ∧ v ≤ high)) ∧
      (low ≤ high →
        (((p.setRange low high).run ops).setValue low).1 = .ok () ∧
        (((p.setRange low high).run ops).setValue high).1 = .ok ()) ∧
      ((((p.setRange low high).run ops).setValue v).1 = .ok () →
        (((p.setRange low high).run ops).setValue v).2.getValue = .ok v)) ∧
    (∀ (q : ValueParameter Double) (low high v : Double), q.m_range = (low, high) →
      ((q.setValue_double v).1 = .ok () ↔
        (Double.le low v = true ∧ Double.le v high = true)) ∧
      ((q.setValue_double v).1 = .error (.runtime_error msgOutsideRange) ↔
        ¬ (Double.le low v = true ∧ Double.le v high = true)) ∧
      (v.isNaN = false → low.isNaN = false → high.isNaN = false →
        ((q.setValue_double v).1 = .error (.runtime_error msgOutsideRange) ↔
          (Double.lt v low = true ∨ Double.gt v high = true))) ∧
      ((v.isNaN = true ∨ low.isNaN = true ∨ high.isNaN = true) →
        (q.setValue_double v).1 = .error (.runtime_error msgOutsideRange)) ∧
      (v.isNaN = true → Double.lt v low = false ∧ Double.gt v high = false) ∧
      (Double.le low high = true →
        (q.setValue_double low).1 = .ok () ∧ (q.setValue_double high).1 = .ok ()) ∧
      ((q.setValue_double v).1 = .ok () → q.m_isInitialized &&& RANGE_SET ≠ 0 →
        (q.setValue_double v).2.getValue = .ok v)) := by
  constructor
  · intro T _ _ p low high v ops hops
    have hr : ((p.setRange low high).run ops).m_range = (low, high) := by
      rw [ValueParameter.run_range ops _ hops, ValueParameter.setRange_range]
    have hb : ((p.setRange low high).run ops).m_isInitialized.testBit 0 = true := by
      rw [ValueParameter.run_bit0, ValueParameter.setRange_isInitialized]
      exact Or.inl (testBit_or_RANGE_SET _).1
    refine ⟨?_, ?_, ?_, ?_⟩
    · rw [ValueParameter.setValue_error_iff, hr]
    · rw [ValueParameter.setValue_ok_iff, hr]
    · intro hle
      constructor
      · rw [ValueParameter.setValue_ok_iff, hr]
        exact ⟨le_refl _, hle⟩
      · rw [ValueParameter.setValue_ok_iff, hr]
        exact ⟨hle, le_refl _⟩
    · intro hok
      rw [ValueParameter.getValue_ok_iff, ValueParameter.setValue_isInitialized]
      refine ⟨?_, (testBit_or_DEFAULT_SET _).1, ValueParameter.setValue_ok_val _ _ hok⟩
      rw [(testBit_or_DEFAULT_SET _).2]
      exact hb
  · intro q low high v hr
    have hok := ValueParameter.setValue_double_ok_iff q v
    have herr := ValueParameter.setValue_double_error_iff q v
    rw [hr] at hok herr
    refine ⟨hok, herr, ?_, ?_, ?_, ?_, ?_⟩
    · intro hv hl hh
      rw [herr]
      constructor
      · intro hn
        by_cases h1 : Double.le low v = true
        · have h2 : ¬ (Double.le v high = true) := fun hc => hn ⟨h1, hc⟩
          exact Or.inr ((Double.not_le_iff_lt v high hv hh).mp h2)
        · exact Or.inl ((Double.not_le_iff_lt low v hl hv).mp h1)
      · rintro (h | h) ⟨h1, h2⟩
        · exact (Double.not_le_iff_lt low v hl hv).mpr h h1
        · exact (Double.not_le_iff_lt v high hv hh).mpr h h2
    · intro hnan
      rw [herr]
      rintro ⟨h1, h2⟩
      have e1 := (Double.le_eq_true_iff low v).mp h1
      have e2 := (Double.le_eq_true_iff v high).mp h2
      rcases hnan with h | h | h
      · rw [e1.2.1] at h; cases h
      · rw [e1.1] at h; cases h
      · rw [e2.2.1] at h; cases h
    · intro hv
      constructor
      · simp [Double.lt, hv]
      · simp [Double.gt, Double.lt, hv]
    · intro hle
      have e := (Double.le_eq_true_iff low high).mp hle
      have hll : Double.le low low = true :=
        (Double.le_eq_true_iff low low).mpr ⟨e.1, e.1, le_refl _⟩
      have hhh : Double.le high high = true :=
        (Double.le_eq_true_iff high high).mpr ⟨e.2.1, e.2.1, le_refl _⟩
      have hokl := ValueParameter.setValue_double_ok_iff q low
      have hokh := ValueParameter.setValue_double_ok_iff q high
      rw [hr] at hokl hokh
      exact ⟨hokl.mpr ⟨hll, hle⟩, hokh.mpr ⟨hle, hhh⟩⟩
    · intro hsucc hbit
      rw [ValueParameter.getValue_ok_iff, ValueParameter.setValue_double_isInitialized]
      refine ⟨?_, (testBit_or_DEFAULT_SET _).1,
        (ValueParameter.setValue_double_val q v).1 hsucc⟩
      rw [(testBit_or_DEFAULT_SET _).2]
      exact (and_RANGE_SET_ne_zero _).mp hbit

/-- Witness for C1 (amended): range `[0, 10]` on an `int` parameter, then a rejected
`setValue(11)` and a `setValueStr`, then `setValue(7)`; and `setValue(0.5)` on the
`double` parameter with range `[0.0, 1.0]`. -/
theorem setValue_checks_latest_range_witness :
    (∀ a b, ValueOp.setRange a b ∉
        [ValueOp.setValue (11 : Int), ValueOp.setValueStr "4"]) ∧
    (((((((ValueParameter.construct [] "Border_width" (0 : Int)).1.setRange 0 10).run
        [ValueOp.setValue 11, ValueOp.setValueStr "4"]).setValue 7).1
        = .error (.runtime_error msgOutsideRange)) ↔ ((7 : Int) < 0 ∨ (7 : Int) > 10)) ∧
    ((((((ValueParameter.construct [] "Border_width" (0 : Int)).1.setRange 0 10).run
        [ValueOp.setValue 11, ValueOp.setValueStr "4"]).setValue 7).1 = .ok ())
        ↔ ((0 : Int) ≤ 7 ∧ (7 : Int) ≤ 10)) ∧
    ((0 : Int) ≤ 10 →
      ((((ValueParameter.construct [] "Border_width" (0 : Int)).1.setRange 0 10).run
        [ValueOp.setValue 11, ValueOp.setValueStr "4"]).setValue 0).1 = .ok () ∧
      ((((ValueParameter.construct [] "Border_width" (0 : Int)).1.setRange 0 10).run
        [ValueOp.setValue 11, ValueOp.setValueStr "4"]).setValue 10).1 = .ok ()) ∧
    (((((ValueParameter.construct [] "Border_width" (0 : Int)).1.setRange 0 10).run
        [ValueOp.setValue 11, ValueOp.setValueStr "4"]).setValue 7).1 = .ok () →
      ((((ValueParameter.construct [] "Border_width" (0 : Int)).1.setRange 0 10).run
        [ValueOp.setValue 11, ValueOp.setValueStr "4"]).setValue 7).2.getValue = .ok 7)) ∧
    (edgeThresholdParameter.m_range = (ValueInit.zero, double_1_0) ∧
      ((edgeThresholdParameter.setValue_double double_0_5).1 = .ok () ↔
        (Double.le ValueInit.zero double_0_5 = true ∧
          Double.le double_0_5 double_1_0 = true)) ∧
      (edgeThresholdParameter.setValue_double double_0_5).1 = .ok () ∧
      (edgeThresholdParameter.setValue_double double_0_5).2.getValue = .ok double_0_5) :=
  ⟨by simp,
   setValue_checks_latest_range.1 Int
     (ValueParameter.construct [] "Border_width" (0 : Int)).1 0 10 7
     [ValueOp.setValue 11, ValueOp.setValueStr "4"] (by simp),
   rfl,
   (setValue_checks_latest_range.2 edgeThresholdParameter ValueInit.zero double_1_0
     double_0_5 rfl).1,
   rfl,
   (setValue_checks_latest_range.2 edgeThresholdParameter ValueInit.zero double_1_0
     double_0_5 rfl).2.2.2.2.2.2 rfl (by decide)⟩

/-- C2: on a numeric and on an enum parameter, whatever calls were made since
construction, `getValue()` succeeds exactly when both `setRange`/`setOptions` and
`setValue` are among them (in any order), it then returns the stored value, and otherwise
it fails as not initialized. -/
theorem getValue_ok_iff_range_and_default_called :
    (∀ (T : Type) [LinearOrder T] [Numeric T] (parent : List String) (name : String)
        (v0 : T) (ops : List (ValueOp T)),
      ((ValueOp.calledSetRange ops ∧ ValueOp.calledSetValue ops) →
        ((ValueParameter.construct parent name v0).1.run ops).getValue
          = .ok ((ValueParameter.construct parent name v0).1.run ops).m_val) ∧
      (¬ (ValueOp.calledSetRange ops ∧ ValueOp.calledSetValue ops) →
        ∃ e, ((ValueParameter.construct parent name v0).1.run ops).getValue = .error e ∧
          e.isNotInitialized)) ∧
    (∀ (T : Type) [LinearOrder T] [TypeId T] (parent : List String) (name : String)
        (v0 : T) (ops : List (EnumOp T)),
      ((EnumOp.calledSetOptions ops ∧ EnumOp.calledSetValue ops) →
        ((EnumParameter.construct parent name v0).1.run ops).getValue
          = .ok ((EnumParameter.construct parent name v0).1.run ops).m_val) ∧
      (¬ (EnumOp.calledSetOptions ops ∧ EnumOp.calledSetValue ops) →
        ∃ e, ((EnumParameter.construct parent name v0).1.run ops).getValue = .error e ∧
          e.isNotInitialized)) := by
  constructor
  · intro T _ _ parent name v0 ops
    have b0 := ValueParameter.run_bit0 ops (ValueParameter.construct parent name v0).1
    have b1 := ValueParameter.run_bit1 ops (ValueParameter.construct parent name v0).1
    have z0 : ¬ ((ValueParameter.construct parent name v0).1.m_isInitialized.testBit 0
        = true) := by simp [ValueParameter.construct]
    have z1 : ¬ ((ValueParameter.construct parent name v0).1.m_isInitialized.testBit 1
        = true) := by simp [ValueParameter.construct]
    constructor
    · rintro ⟨hr, hv⟩
      rw [ValueParameter.getValue_ok_iff]
      exact ⟨b0.mpr (Or.inr hr), b1.mpr (Or.inr hv), rfl⟩
    · intro hn
      apply ValueParameter.getValue_error
      rintro ⟨h0, h1⟩
      exact hn ⟨(b0.mp h0).resolve_left z0, (b1.mp h1).resolve_left z1⟩
  · intro T _ _ parent name v0 ops
    have b0 := EnumParameter.enum_run_bit0 ops (EnumParameter.construct parent name v0).1
    have b1 := EnumParameter.enum_run_bit1 ops (EnumParameter.construct parent name v0).1
    have z0 : ¬ ((EnumParameter.construct parent name v0).1.m_isInitialized.testBit 0
        = true) := by simp [EnumParameter.construct]
    have z1 : ¬ ((EnumParameter.construct parent name v0).1.m_isInitialized.testBit 1
        = true) := by simp [EnumParameter.construct]
    constructor
    · rintro ⟨hr, hv⟩
      rw [EnumParameter.enum_getValue_ok_iff]
      exact ⟨b0.mpr (Or.inr hr), b1.mpr (Or.inr hv), rfl⟩
    · intro hn
      apply EnumParameter.enum_getValue_error
      rintro ⟨h0, h1⟩
      exact hn ⟨(b0.mp h0).resolve_left z0, (b1.mp h1).resolve_left z1⟩

/-! ## Claims on the string setter and getter of a numeric parameter -/

/-- C3 (the code at a failing input): on an `int` parameter with range `[0, 10]` and value
`5`, `setValueStr("11")` throws nothing and stores `11`, which `getValue()` then returns,
whereas `setValue(11)` is rejected as out of range and leaves `5` in place. -/
theorem setValueStr_skips_range_check :
    ((((ValueParameter.construct [] "Border_width" (0 : Int)).1.setRange 0 10).setValue
        5).2.getValue = .ok 5) ∧
    (((((ValueParameter.construct [] "Border_width" (0 : Int)).1.setRange 0 10).setValue
        5).2.setValueStr "11").1 = .ok ()) ∧
    (((((ValueParameter.construct [] "Border_width" (0 : Int)).1.setRange 0 10).setValue
        5).2.setValueStr "11").2.getValue = .ok 11) ∧
    (((((ValueParameter.construct [] "Border_width" (0 : Int)).1.setRange 0 10).setValue
        5).2.setValue 11).1 = .error (.runtime_error msgOutsideRange)) ∧
    (((((ValueParameter.construct [] "Border_width" (0 : Int)).1.setRange 0 10).setValue
        5).2.setValue 11).2.getValue = .ok 5) :=
  ⟨rfl, rfl, rfl, rfl, rfl⟩

/-- C7: for an initialized `int` parameter with value `v`, `getValueStr()` returns the
decimal text of `v`; `stoi` reads that text back as `v`, so `setValueStr` of it stores
exactly `v` in any `int` parameter, and `setValueStr(getValueStr())` leaves the parameter
as it was. This holds for every `int` value, zero and negatives included. -/
theorem int_getValueStr_setValueStr_roundtrip (p : ValueParameter Int) (v : Int)
    (hv : isInt v) (hinit : p.getValue = .ok v) :
    p.getValueStr = .ok (to_string_int v) ∧
    stoi (to_string_int v) = .ok v ∧
    (∀ q : ValueParameter Int,
      q.setValueStr (to_string_int v) = (.ok (), { q with m_val := v })) ∧
    p.setValueStr (to_string_int v) = (.ok (), p) := by
  have hs := stoi_to_string_int v hv
  have hval : p.m_val = v := ((ValueParameter.getValue_ok_iff p v).mp hinit).2.2
  have hq : ∀ q : ValueParameter Int,
      q.setValueStr (to_string_int v) = (.ok (), { q with m_val := v }) := by
    intro q
    have h1 : (Numeric.fromStr (to_string_int v) : Except Exn Int) = .ok v := hs
    unfold ValueParameter.setValueStr
    rw [h1]
  refine ⟨?_, hs, hq, ?_⟩
  · unfold ValueParameter.getValueStr
    rw [hinit]
    rfl
  · rw [hq p, ← hval]

/-- Witness for C7: an `int` parameter with range `[-200, 200]` and value `-120`; the text
is `"-120"`. -/
theorem int_getValueStr_setValueStr_roundtrip_witness :
    isInt (-120) ∧
    ((((ValueParameter.construct [] "Normalize_strength" (0 : Int)).1.setRange (-200)
        200).setValue (-120)).2.getValue = .ok (-120)) ∧
    ((((ValueParameter.construct [] "Normalize_strength" (0 : Int)).1.setRange (-200)
        200).setValue (-120)).2.getValueStr = .ok "-120") ∧
    stoi "-120" = .ok (-120) ∧
    (∀ q : ValueParameter Int,
      q.setValueStr "-120" = (.ok (), { q with m_val := -120 })) ∧
    ((((ValueParameter.construct [] "Normalize_strength" (0 : Int)).1.setRange (-200)
        200).setValue (-120)).2.setValueStr "-120"
      = (.ok (), (((ValueParameter.construct [] "Normalize_strength" (0 : Int)).1.setRange
          (-200) 200).setValue (-120)).2)) :=
  ⟨by decide, rfl,
   int_getValueStr_setValueStr_roundtrip
     (((ValueParameter.construct [] "Normalize_strength" (0 : Int)).1.setRange (-200)
        200).setValue (-120)).2 (-120) (by decide) rfl⟩

/-! ## EnumParameter: the two loops over the option map -/

theorem lookupLabel_of_mem {T : Type} [LinearOrder T] (k : T) (l : String) :
    ∀ entries : List (T × String), entries.Pairwise (fun a b => a.1 < b.1) →
      (k, l) ∈ entries → EnumParameter.lookupLabel k entries = l := by
  intro entries
  induction entries with
  | nil => intro _ h; cases h
  | cons x rest ih =>
    intro hp hm
    rcases List.mem_cons.mp hm with h | h
    · simp [EnumParameter.lookupLabel, ← h]
    · have hlt : x.1 < k := (List.pairwise_cons.mp hp).1 (k, l) h
      have hne : ¬ x.1 = k := ne_of_lt hlt
      simp only [EnumParameter.lookupLabel, hne, if_false]
      exact ih (List.pairwise_cons.mp hp).2 h

theorem lookupLabel_of_not_mem {T : Type} [LinearOrder T] (k : T) :
    ∀ entries : List (T × String), (∀ l, (k, l) ∉ entries) →
      EnumParameter.lookupLabel k entries = "ERROR" := by
  intro entries
  induction entries with
  | nil => intro _; rfl
  | cons x rest ih =>
    intro h
    have hne : ¬ x.1 = k := by
      intro hc
      exact h x.2 (by rw [← hc]; exact List.mem_cons_self _ _)
    simp only [EnumParameter.lookupLabel, hne, if_false]
    exact ih (fun l hc => h l (List.mem_cons_of_mem _ hc))

theorem assignMatches_of_no_match {T : Type} [LinearOrder T] (s : String) :
    ∀ (entries : List (T × String)) (val : T), (∀ x ∈ entries, x.2 ≠ s) →
      EnumParameter.assignMatches s entries val = val := by
  intro entries
  induction entries with
  | nil => intro val _; rfl
  | cons x rest ih =>
    intro val h
    have hne : ¬ x.2 = s := h x (List.mem_cons_self _ _)
    simp only [EnumParameter.assignMatches, hne, if_false]
    exact ih val (fun y hy => h y (List.mem_cons_of_mem _ hy))

theorem assignMatches_of_mem {T : Type} [LinearOrder T] (e : T) (l : String) :
    ∀ (entries : List (T × String)) (val : T), (entries.map Prod.snd).Nodup →
      (e, l) ∈ entries → EnumParameter.assignMatches l entries val = e := by
  intro entries
  induction entries with
  | nil => intro _ _ h; cases h
  | cons x rest ih =>
    intro val hd hm
    rw [List.map_cons, List.nodup_cons] at hd
    rcases List.mem_cons.mp hm with h | h
    · have hx : x.2 = l := by rw [← h]
      have hx1 : x.1 = e := by rw [← h]
      simp only [EnumParameter.assignMatches, hx, if_true, hx1]
      apply assignMatches_of_no_match
      intro y hy hc
      apply hd.1
      rw [hx, ← hc]
      exact List.mem_map_of_mem _ hy
    · simp only [EnumParameter.assignMatches]
      exact ih _ hd.2 h

namespace EnumParameter

variable {T : Type} [LinearOrder T]

theorem step_isInitialized_eq_zero [TypeId T] (p : EnumParameter T) (op : EnumOp T) :
    (p.step op).m_isInitialized = 0 ↔
      (p.m_isInitialized = 0 ∧ (∀ m, op ≠ EnumOp.setOptions m) ∧
        (∀ v, op ≠ EnumOp.setValue v)) := by
  cases op with
  | setModifiable val => simp [step, setModifiable]
  | setOptions m =>
    have h : p.m_isInitialized ||| RANGE_SET ≠ 0 := by
      intro hc
      have := (testBit_or_RANGE_SET p.m_isInitialized).1
      rw [hc] at this
      simp at this
    simp [step, setOptions, updateOptions, h]
  | setValue v =>
    have h : p.m_isInitialized ||| DEFAULT_SET ≠ 0 := by
      intro hc
      have := (testBit_or_DEFAULT_SET p.m_isInitialized).1
      rw [hc] at this
      simp at this
    simp [step, setValue, h]
  | setValueStr s => simp [step, setValueStr]

theorem run_isInitialized_eq_zero [TypeId T] (ops : List (EnumOp T)) :
    ∀ p : EnumParameter T, (p.run ops).m_isInitialized = 0 ↔
      (p.m_isInitialized = 0 ∧ ¬ EnumOp.calledSetOptions ops ∧
        ¬ EnumOp.calledSetValue ops) := by
  induction ops with
  | nil => intro p; simp [enum_run_nil, EnumOp.calledSetOptions, EnumOp.calledSetValue]
  | cons op ops ih =>
    intro p
    rw [enum_run_cons, ih, step_isInitialized_eq_zero]
    unfold EnumOp.calledSetOptions EnumOp.calledSetValue
    constructor
    · rintro ⟨⟨h0, h1, h2⟩, h3, h4⟩
      refine ⟨h0, ?_, ?_⟩
      · rintro ⟨m, hm⟩
        rcases List.mem_cons.mp hm with h | h
        · exact h1 m h.symm
        · exact h3 ⟨m, h⟩
      · rintro ⟨v, hv⟩
        rcases List.mem_cons.mp hv with h | h
        · exact h2 v h.symm
        · exact h4 ⟨v, h⟩
    · rintro ⟨h0, h1, h2⟩
      refine ⟨⟨h0, ?_, ?_⟩, ?_, ?_⟩
      · intro m hc
        exact h1 ⟨m, by rw [hc]; exact List.mem_cons_self _ _⟩
      · intro v hc
        exact h2 ⟨v, by rw [hc]; exact List.mem_cons_self _ _⟩
      · rintro ⟨m, hm⟩
        exact h1 ⟨m, List.mem_cons_of_mem _ hm⟩
      · rintro ⟨v, hv⟩
        exact h2 ⟨v, List.mem_cons_of_mem _ hv⟩

/-- A map with entries can only have come from `setOptions`, which sets `RANGE_SET`. -/
theorem step_entries_inv [TypeId T] (p : EnumParameter T) (op : EnumOp T)
    (h : p.m_enumOptions.entries ≠ [] → p.m_isInitialized ≠ 0) :
    (p.step op).m_enumOptions.entries ≠ [] → (p.step op).m_isInitialized ≠ 0 := by
  intro hne hz
  have hz0 := ((step_isInitialized_eq_zero p op).mp hz)
  cases op with
  | setModifiable val => exact h hne hz0.1
  | setOptions m => exact hz0.2.1 m rfl
  | setValue v => exact hz0.2.2 v rfl
  | setValueStr s => exact h hne hz0.1

theorem run_entries_inv [TypeId T] (ops : List (EnumOp T)) :
    ∀ p : EnumParameter T, (p.m_enumOptions.entries ≠ [] → p.m_isInitialized ≠ 0) →
      (p.run ops).m_enumOptions.entries ≠ [] → (p.run ops).m_isInitialized ≠ 0 := by
  induction ops with
  | nil => intro p h; exact h
  | cons op ops ih =>
    intro p h
    rw [enum_run_cons]
    exact ih _ (step_entries_inv p op h)

theorem construct_entries_inv (parent : List String) (name : String) (v0 : T) :
    (construct parent name v0).1.m_enumOptions.entries ≠ [] →
      (construct parent name v0).1.m_isInitialized ≠ 0 := by
  intro h
  exact absurd rfl h

end EnumParameter

/-! ## Claims on the string setter and getter of an enum parameter -/

/-- C8: on an enum parameter whose option map has pairwise distinct labels, for a declared
enumerator `e` with label `l`: `setValueStr(l)` makes `e` the current value and
`getValueStr()` then returns `l`; and when the current value already is `e`,
`getValueStr()` returns `l` and `setValueStr(l)` changes nothing. -/
theorem enum_setValueStr_getValueStr_roundtrip {T : Type} [LinearOrder T] [TypeId T]
    (parent : List String) (name : String) (v0 : T) (ops : List (EnumOp T))
    (p : EnumParameter T) (hp : p = (EnumParameter.construct parent name v0).1.run ops)
    (e : T) (l : String)
    (hlabels : (p.m_enumOptions.entries.map Prod.snd).Nodup)
    (hmem : (e, l) ∈ p.m_enumOptions.entries) :
    (p.setValueStr l).1 = .ok () ∧
    (p.setValueStr l).2.m_val = e ∧
    (p.setValueStr l).2.getValueStr = .ok l ∧
    (p.m_val = e → p.getValueStr = .ok l ∧ (p.setValueStr l).2 = p) := by
  have hne : p.m_enumOptions.entries ≠ [] := by
    intro hc
    rw [hc] at hmem
    cases hmem
  have hinit : p.m_isInitialized ≠ 0 := by
    rw [hp] at hne ⊢
    exact EnumParameter.run_entries_inv ops _
      (EnumParameter.construct_entries_inv parent name v0) hne
  have hassign := assignMatches_of_mem e l p.m_enumOptions.entries p.m_val hlabels hmem
  have hlook := lookupLabel_of_mem e l p.m_enumOptions.entries p.m_enumOptions.ascending hmem
  refine ⟨rfl, hassign, ?_, ?_⟩
  · simp only [EnumParameter.getValueStr, EnumParameter.setValueStr, hinit, if_false,
      hassign, hlook]
  · intro hval
    constructor
    · simp only [EnumParameter.getValueStr, hinit, if_false, hval, hlook]
    · simp only [EnumParameter.setValueStr, hassign, ← hval]

/-- Witness for C8: the map `0 ↦ Erode, 1 ↦ Dilate, 2 ↦ Open` with current value `1`;
`setValueStr("Open")` selects `2`. -/
theorem enum_setValueStr_getValueStr_roundtrip_witness :
    (morphTypeParameter.m_enumOptions.entries.map Prod.snd).Nodup ∧
    ((2 : Int), "Open") ∈ morphTypeParameter.m_enumOptions.entries ∧
    (morphTypeParameter.setValueStr "Open").1 = .ok () ∧
    (morphTypeParameter.setValueStr "Open").2.m_val = 2 ∧
    (morphTypeParameter.setValueStr "Open").2.getValueStr = .ok "Open" ∧
    (morphTypeParameter.m_val = 2 → morphTypeParameter.getValueStr = .ok "Open" ∧
      (morphTypeParameter.setValueStr "Open").2 = morphTypeParameter) :=
  ⟨by decide, by decide,
   enum_setValueStr_getValueStr_roundtrip [] "Morphology_type" 0
     [EnumOp.setOptions morphOptions, EnumOp.setValue 1] morphTypeParameter rfl 2 "Open"
     (by decide) (by decide)⟩

/-- C9: when `setOptions` or `setValue` is among the calls made on an enum parameter since
construction, `getValueStr()` does not fail: it returns the label mapped to the current
value when that value is a key of the option map and the text `"ERROR"` when it is not;
when neither was ever called it fails as not initialized. -/
theorem enum_getValueStr_label_or_sentinel {T : Type} [LinearOrder T] [TypeId T]
    (parent : List String) (name : String) (v0 : T) (ops : List (EnumOp T))
    (p : EnumParameter T) (hp : p = (EnumParameter.construct parent name v0).1.run ops) :
    ((EnumOp.calledSetOptions ops ∨ EnumOp.calledSetValue ops) →
      (∀ l, (p.m_val, l) ∈ p.m_enumOptions.entries → p.getValueStr = .ok l) ∧
      ((∀ l, (p.m_val, l) ∉ p.m_enumOptions.entries) → p.getValueStr = .ok "ERROR")) ∧
    (¬ (EnumOp.calledSetOptions ops ∨ EnumOp.calledSetValue ops) →
      p.getValueStr = .error (.runtime_error msgNotInitialized)) := by
  have hz := EnumParameter.run_isInitialized_eq_zero ops
    (EnumParameter.construct parent name v0).1
  rw [← hp] at hz
  constructor
  · intro hcalled
    have hinit : p.m_isInitialized ≠ 0 := by
      intro hc
      have := hz.mp hc
      rcases hcalled with h | h
      · exact this.2.1 h
      · exact this.2.2 h
    constructor
    · intro l hl
      simp only [EnumParameter.getValueStr, hinit, if_false,
        lookupLabel_of_mem p.m_val l _ p.m_enumOptions.ascending hl]
    · intro hnone
      simp only [EnumParameter.getValueStr, hinit, if_false,
        lookupLabel_of_not_mem p.m_val _ hnone]
  · intro hnot
    have hinit : p.m_isInitialized = 0 :=
      hz.mpr ⟨rfl, fun h => hnot (Or.inl h), fun h => hnot (Or.inr h)⟩
    simp only [EnumParameter.getValueStr, hinit, if_true]

/-- Witness for C9: after `setOptions` of the three-entry map and `setValue(1)`. -/
theorem enum_getValueStr_label_or_sentinel_witness :
    ((EnumOp.calledSetOptions [EnumOp.setOptions morphOptions, EnumOp.setValue 1] ∨
        EnumOp.calledSetValue [EnumOp.setOptions morphOptions, EnumOp.setValue 1]) →
      (∀ l, (morphTypeParameter.m_val, l) ∈ morphTypeParameter.m_enumOptions.entries →
        morphTypeParameter.getValueStr = .ok l) ∧
      ((∀ l, (morphTypeParameter.m_val, l) ∉ morphTypeParameter.m_enumOptions.entries) →
        morphTypeParameter.getValueStr = .ok "ERROR")) ∧
    (¬ (EnumOp.calledSetOptions [EnumOp.setOptions morphOptions, EnumOp.setValue 1] ∨
        EnumOp.calledSetValue [EnumOp.setOptions morphOptions, EnumOp.setValue 1]) →
      morphTypeParameter.getValueStr = .error (.runtime_error msgNotInitialized)) :=
  enum_getValueStr_label_or_sentinel [] "Morphology_type" 0
    [EnumOp.setOptions morphOptions, EnumOp.setValue 1] morphTypeParameter rfl

/-- C10: on any enum parameter, `setValueStr(s)` with a string `s` that is not a label of
the option map throws nothing and leaves every member as it was. -/
theorem enum_setValueStr_unknown_label_unchanged {T : Type} [LinearOrder T]
    (p : EnumParameter T) (s : String)
    (hs : ∀ x ∈ p.m_enumOptions.entries, x.2 ≠ s) :
    (p.setValueStr s).1 = .ok () ∧ (p.setValueStr s).2 = p := by
  refine ⟨rfl, ?_⟩
  simp only [EnumParameter.setValueStr,
    assignMatches_of_no_match s p.m_enumOptions.entries p.m_val hs]

/-- Witness for C10: `"Close"` is not a label of the three-entry map. -/
theorem enum_setValueStr_unknown_label_unchanged_witness :
    (∀ x ∈ morphTypeParameter.m_enumOptions.entries, x.2 ≠ "Close") ∧
    (morphTypeParameter.setValueStr "Close").1 = .ok () ∧
    (morphTypeParameter.setValueStr "Close").2 = morphTypeParameter :=
  ⟨by decide, enum_setValueStr_unknown_label_unchanged morphTypeParameter "Close" (by decide)⟩

/-! ## Claims on the feature store (spec-modelled) -/

theorem Record.setValue_ok (r : Record) (f : DataFlag) (v : Value)
    (h : f.enabledIn r.m_dataFlags ∧ v.type = f.declaredType) :
    r.setValue f v =
      .ok { r with m_values := fun g => if g = f then v else r.m_values g } := by
  simp [Record.setValue, h.1, h.2]

/-- A run of well-formed `setValue` calls succeeds, keeps the mask, and leaves every
field it does not name as it was. -/
theorem Record.setValues_frame (sets : List (DataFlag × Value)) :
    ∀ r : Record, (∀ x ∈ sets, x.1.enabledIn r.m_dataFlags ∧ x.2.type = x.1.declaredType) →
      ∃ r1, r.setValues sets = .ok r1 ∧ r1.m_dataFlags = r.m_dataFlags ∧
        ∀ g, (∀ x ∈ sets, x.1 ≠ g) → r1.m_values g = r.m_values g := by
  induction sets with
  | nil => intro r _; exact ⟨r, rfl, rfl, fun _ _ => rfl⟩
  | cons x rest ih =>
    intro r h
    obtain ⟨f, v⟩ := x
    have hx := h (f, v) (List.mem_cons_self _ _)
    obtain ⟨r1, h1, h2, h3⟩ := ih
      { r with m_values := fun g => if g = f then v else r.m_values g }
      (fun y hy => h y (List.mem_cons_of_mem _ hy))
    refine ⟨r1, ?_, h2, ?_⟩
    · simp only [Record.setValues, Record.setValue_ok r f v hx]
      exact h1
    · intro g hg
      rw [h3 g (fun y hy => hg y (List.mem_cons_of_mem _ hy))]
      have hne : ¬ g = f := fun hc => hg (f, v) (List.mem_cons_self _ _) hc.symm
      simp [hne]

theorem Record.setValues_last (f : DataFlag) (v : Value) (post : List (DataFlag × Value))
    (hlast : ∀ x ∈ post, x.1 ≠ f) (pre : List (DataFlag × Value)) :
    ∀ r : Record,
      (∀ x ∈ pre ++ (f, v) :: post,
        x.1.enabledIn r.m_dataFlags ∧ x.2.type = x.1.declaredType) →
      ∃ r1, r.setValues (pre ++ (f, v) :: post) = .ok r1 ∧
        r1.m_dataFlags = r.m_dataFlags ∧ r1.m_values f = v := by
  induction pre with
  | nil =>
    intro r h
    have hx := h (f, v) (List.mem_cons_self _ _)
    obtain ⟨r1, h1, h2, h3⟩ := Record.setValues_frame post
      { r with m_values := fun g => if g = f then v else r.m_values g }
      (fun y hy => h y (List.mem_cons_of_mem _ hy))
    refine ⟨r1, ?_, h2, ?_⟩
    · simp only [List.nil_append, Record.setValues, Record.setValue_ok r f v hx]
      exact h1
    · rw [h3 f hlast]
      simp
  | cons x pre ih =>
    intro r h
    obtain ⟨g, w⟩ := x
    have hx := h (g, w) (List.mem_cons_self _ _)
    obtain ⟨r1, h1, h2, h3⟩ := ih
      { r with m_values := fun k => if k = g then w else r.m_values k }
      (fun y hy => h y (List.mem_cons_of_mem _ hy))
    refine ⟨r1, ?_, h2, h3⟩
    simp only [List.cons_append, Record.setValues, Record.setValue_ok r g w hx]
    exact h1

theorem DataContainer.appendNew_index (c : DataContainer) :
    c.appendNew.1.index c.appendNew.2 = some (Record.create c.m_dataFlags) := by
  simp [DataContainer.appendNew, DataContainer.index]

/-- C4: on the record created by `appendNew()`, after any run of `setValue` calls on enabled
fields with values of the declared types, `getValue<T>(f)` with the declared type of `f`
returns the value of the last call that set `f`; the calls on other fields made before
and after it do not disturb it. -/
theorem record_getValue_returns_last_set (c : DataContainer)
    (pre post : List (DataFlag × Value)) (f : DataFlag) (v : Value)
    (hlast : ∀ x ∈ post, x.1 ≠ f)
    (hsets : ∀ x ∈ pre ++ (f, v) :: post,
      x.1.enabledIn c.m_dataFlags ∧ x.2.type = x.1.declaredType) :
    ∃ r0 r, c.appendNew.1.index c.appendNew.2 = some r0 ∧
      r0.setValues (pre ++ (f, v) :: post) = .ok r ∧
      r.getValue f.declaredType f = .ok v := by
  obtain ⟨r, h1, h2, h3⟩ :=
    Record.setValues_last f v post hlast pre (Record.create c.m_dataFlags) hsets
  refine ⟨Record.create c.m_dataFlags, r, DataContainer.appendNew_index c, h1, ?_⟩
  have hf : f.enabledIn r.m_dataFlags := by
    rw [h2]
    exact (hsets (f, v) (by simp)).1
  simp [Record.getValue, hf, h3]

/-- Witness for C4: the test "set all data-types": mask `0xffff`, `Area` set to `0.254`
first, then the fourteen other fields. -/
theorem record_getValue_returns_last_set_witness :
    (∀ x ∈ testSetsAfterArea, x.1 ≠ DataFlag.Area) ∧
    (∀ x ∈ [] ++ (DataFlag.Area, Value.double double_0_254) :: testSetsAfterArea,
      x.1.enabledIn (DataContainer.construct 0xffff).m_dataFlags ∧
        x.2.type = x.1.declaredType) ∧
    (∃ r0 r, (DataContainer.construct 0xffff).appendNew.1.index
        (DataContainer.construct 0xffff).appendNew.2 = some r0 ∧
      r0.setValues ([] ++ (DataFlag.Area, Value.double double_0_254) :: testSetsAfterArea)
        = .ok r ∧
      r.getValue DataFlag.Area.declaredType DataFlag.Area
        = .ok (Value.double double_0_254)) :=
  ⟨by decide, by decide,
   record_getValue_returns_last_set (DataContainer.construct 0xffff) [] testSetsAfterArea
     DataFlag.Area (Value.double double_0_254) (by decide) (by decide)⟩

/-- C5: on the record created by `appendNew()`, `setValue(f, v)` for a field `f` that is
not in the mask of the store fails with FieldNotEnabled for every value `v`, of the
declared type or not. -/
theorem record_setValue_disabled_field_fails (c : DataContainer) (f : DataFlag) (v : Value)
    (hf : ¬ f.enabledIn c.m_dataFlags) :
    ∃ r0, c.appendNew.1.index c.appendNew.2 = some r0 ∧
      r0.setValue f v = .error .FieldNotEnabled := by
  refine ⟨Record.create c.m_dataFlags, DataContainer.appendNew_index c, ?_⟩
  have hf2 : ¬ f.enabledIn (Record.create c.m_dataFlags).m_dataFlags := hf
  simp [Record.setValue, hf2]

/-- Witness for C5: the test "illegal calls": mask `Area | Circularity | Inlet`; the four
calls `setValue(Centroid, (1, 3))`, `setValue(Eccentricity, -143.395834)`,
`setValue(Centroid, 13413)` and `setValue(Eccentricity, true)` all fail. -/
theorem record_setValue_disabled_field_fails_witness :
    (¬ DataFlag.Centroid.enabledIn (DataContainer.construct testMaskIllegalCalls).m_dataFlags) ∧
    (¬ DataFlag.Eccentricity.enabledIn
        (DataContainer.construct testMaskIllegalCalls).m_dataFlags) ∧
    (∃ r0, (DataContainer.construct testMaskIllegalCalls).appendNew.1.index
        (DataContainer.construct testMaskIllegalCalls).appendNew.2 = some r0 ∧
      r0.setValue .Centroid (.intPair 1 3) = .error .FieldNotEnabled) ∧
    (∃ r0, (DataContainer.construct testMaskIllegalCalls).appendNew.1.index
        (DataContainer.construct testMaskIllegalCalls).appendNew.2 = some r0 ∧
      r0.setValue .Eccentricity (.double double_neg_143_395834) = .error .FieldNotEnabled) ∧
    (∃ r0, (DataContainer.construct testMaskIllegalCalls).appendNew.1.index
        (DataContainer.construct testMaskIllegalCalls).appendNew.2 = some r0 ∧
      r0.setValue .Centroid (.int 13413) = .error .FieldNotEnabled) ∧
    (∃ r0, (DataContainer.construct testMaskIllegalCalls).appendNew.1.index
        (DataContainer.construct testMaskIllegalCalls).appendNew.2 = some r0 ∧
      r0.setValue .Eccentricity (.bool true) = .error .FieldNotEnabled) :=
  ⟨by decide, by decide,
   record_setValue_disabled_field_fails (DataContainer.construct testMaskIllegalCalls)
     .Centroid (.intPair 1 3) (by decide),
   record_setValue_disabled_field_fails (DataContainer.construct testMaskIllegalCalls)
     .Eccentricity (.double double_neg_143_395834) (by decide),
   record_setValue_disabled_field_fails (DataContainer.construct testMaskIllegalCalls)
     .Centroid (.int 13413) (by decide),
   record_setValue_disabled_field_fails (DataContainer.construct testMaskIllegalCalls)
     .Eccentricity (.bool true) (by decide)⟩

/-! ## Claims on saving and loading process steps -/

/-- Saving a `Morph` and loading the archive into any other `Morph` restores the value of
each of its three parameters. -/
theorem Morph_serialize_roundtrip (s fresh : Morph) :
    ∃ data t, saveWith Morph.serialize s = .ok data ∧
      loadWith Morph.serialize data fresh = .ok t ∧
      t.parameters.map Prod.snd = s.parameters.map Prod.snd :=
  ⟨_, _, rfl, rfl, rfl⟩

theorem Binarize_serialize_roundtrip (s fresh : Binarize) :
    ∃ data t, saveWith Binarize.serialize s = .ok data ∧
      loadWith Binarize.serialize data fresh = .ok t ∧
      t.parameters.map Prod.snd = s.parameters.map Prod.snd :=
  ⟨_, _, rfl, rfl, rfl⟩

theorem Normalize_serialize_roundtrip (s fresh : Normalize) :
    ∃ data t, saveWith Normalize.serialize s = .ok data ∧
      loadWith Normalize.serialize data fresh = .ok t ∧
      t.parameters.map Prod.snd = s.parameters.map Prod.snd :=
  ⟨_, _, rfl, rfl, rfl⟩

theorem SubtractBG_serialize_roundtrip (s fresh : SubtractBG) :
    ∃ data t, saveWith SubtractBG.serialize s = .ok data ∧
      loadWith SubtractBG.serialize data fresh = .ok t ∧
      t.parameters.map Prod.snd = s.parameters.map Prod.snd :=
  ⟨_, _, rfl, rfl, rfl⟩

theorem Canny_serialize_roundtrip (s fresh : Canny) :
    ∃ data t, saveWith Canny.serialize s = .ok data ∧
      loadWith Canny.serialize data fresh = .ok t ∧
      t.parameters.map Prod.snd = s.parameters.map Prod.snd :=
  ⟨_, _, rfl, rfl, rfl⟩

theorem ClearBorder_serialize_roundtrip (s fresh : ClearBorder) :
    ∃ data t, saveWith ClearBorder.serialize s = .ok data ∧
      loadWith ClearBorder.serialize data fresh = .ok t ∧
      t.parameters.map Prod.snd = s.parameters.map Prod.snd :=
  ⟨_, _, rfl, rfl, rfl⟩

/-- C6 (the code at the failing inputs): saving any `PropFilter` writes its two limits
only; loading that archive into another `PropFilter` (a freshly constructed one, say)
restores the two limits and leaves the region-property type of the receiving step as it
was, so the loaded parameter values differ from the saved ones whenever the saved
region-property type is not the one the receiving step started with. -/
theorem PropFilter_load_restores_limits_only (saved fresh : PropFilter) :
    saveWith PropFilter.serialize saved =
      .ok [.double saved.m_lowerLimit.m_val, .double saved.m_upperLimit.m_val] ∧
    ∃ t, loadWith PropFilter.serialize
        [.double saved.m_lowerLimit.m_val, .double saved.m_upperLimit.m_val] fresh = .ok t ∧
      t.m_lowerLimit.m_val = saved.m_lowerLimit.m_val ∧
      t.m_upperLimit.m_val = saved.m_upperLimit.m_val ∧
      t.m_regionPropsTypes = fresh.m_regionPropsTypes ∧
      (saved.m_regionPropsTypes.m_val ≠ fresh.m_regionPropsTypes.m_val →
        t.parameters.map Prod.snd ≠ saved.parameters.map Prod.snd) := by
  refine ⟨rfl, _, rfl, rfl, rfl, rfl, ?_⟩
  intro hne hc
  have h0 := congrArg List.head? hc
  simp only [PropFilter.parameters, List.map_cons, List.head?_cons, EnumParameter.entry,
    Option.some.injEq] at h0
  have h1 : ArchiveValue.int fresh.m_regionPropsTypes.m_val
      = ArchiveValue.int saved.m_regionPropsTypes.m_val := h0
  exact hne (ArchiveValue.int.inj h1).symm

/-- The round trip of C6 on one input: with `Area = 0`, a `PropFilter` on whose
region-property type `setValue(1)` was called is saved and loaded into a fresh step; the
loaded step has region-property type `0`. -/
theorem PropFilter_roundtrip_example :
    saveWith PropFilter.serialize
      { PropFilter.memberInit 0 with
        m_regionPropsTypes := ((PropFilter.memberInit 0).m_regionPropsTypes.setValue 1).2 }
      = .ok [.double ValueInit.zero, .double ValueInit.zero] ∧
    (loadWith PropFilter.serialize [.double ValueInit.zero, .double ValueInit.zero]
      (PropFilter.memberInit 0)).map (fun t => t.m_regionPropsTypes.m_val) = .ok 0 ∧
    ({ PropFilter.memberInit 0 with
        m_regionPropsTypes := ((PropFilter.memberInit 0).m_regionPropsTypes.setValue 1).2 } :
      PropFilter).m_regionPropsTypes.m_val = 1 :=
  ⟨rfl, rfl, rfl⟩

/-! ## The options list and the stream of `getOptions()` -/

/-- Calls other than `setRange` leave `m_options` and `m_name` of a numeric parameter as
they are. -/
theorem ValueParameter.run_options {T : Type} [LinearOrder T] [Numeric T]
    (ops : List (ValueOp T)) :
    ∀ p : ValueParameter T, (∀ a b, ValueOp.setRange a b ∉ ops) →
      (p.run ops).m_options = p.m_options ∧ (p.run ops).m_name = p.m_name := by
  induction ops with
  | nil => intro p _; exact ⟨rfl, rfl⟩
  | cons op ops ih =>
    intro p h
    rw [ValueParameter.run_cons]
    have ih2 := ih (p.step op) (fun a b hc => h a b (List.mem_cons_of_mem _ hc))
    rw [ih2.1, ih2.2]
    cases op with
    | setModifiable val => exact ⟨rfl, rfl⟩
    | setRange a b => exact absurd (List.mem_cons_self _ _) (h a b)
    | setValue v =>
      by_cases hv : v ≥ p.m_range.1 ∧ v ≤ p.m_range.2 <;>
        simp [ValueParameter.step, ValueParameter.setValue, hv]
    | setValueStr str =>
      simp only [ValueParameter.step, ValueParameter.setValueStr]
      split <;> exact ⟨rfl, rfl⟩

/-- Calls other than `setOptions` leave `m_options`, `m_name` and the option map of an
enum parameter as they are. -/
theorem EnumParameter.enum_run_options {T : Type} [LinearOrder T] [TypeId T]
    (ops : List (EnumOp T)) :
    ∀ p : EnumParameter T, (∀ m, EnumOp.setOptions m ∉ ops) →
      (p.run ops).m_options = p.m_options ∧ (p.run ops).m_name = p.m_name ∧
        (p.run ops).m_enumOptions = p.m_enumOptions := by
  induction ops with
  | nil => intro p _; exact ⟨rfl, rfl, rfl⟩
  | cons op ops ih =>
    intro p h
    rw [EnumParameter.enum_run_cons]
    have ih2 := ih (p.step op) (fun m hc => h m (List.mem_cons_of_mem _ hc))
    rw [ih2.1, ih2.2.1, ih2.2.2]
    cases op with
    | setModifiable val => exact ⟨rfl, rfl, rfl⟩
    | setOptions m => exact absurd (List.mem_cons_self _ _) (h m)
    | setValue v => exact ⟨rfl, rfl, rfl⟩
    | setValueStr str => exact ⟨rfl, rfl, rfl⟩

/-- C11: `getOptions()` writes every entry of `m_options` followed by `|`. On a numeric
parameter whose latest `setRange` was `setRange(low, high)` the entries are exactly the
four fields type tag, name, text of `low`, text of `high`; on an enum parameter whose
latest `setOptions` was `setOptions(m)` they are exactly the `2 + |m|` fields type tag,
name, then the labels of `m` in ascending enumerator order. -/
theorem getOptions_fields_after_setRange_setOptions :
    (∀ (T : Type) [LinearOrder T] [Numeric T] (p : ValueParameter T) (low high : T)
        (ops : List (ValueOp T)), (∀ a b, ValueOp.setRange a b ∉ ops) →
      ((p.setRange low high).run ops).m_options =
        [TypeId.name T, p.m_name, Numeric.to_string low, Numeric.to_string high] ∧
      ((p.setRange low high).run ops).getOptions =
        { buf := (TypeId.name T).toList ++ SPLITCHAR :: (p.m_name.toList ++ SPLITCHAR ::
            ((Numeric.to_string low).toList ++ SPLITCHAR ::
              ((Numeric.to_string high).toList ++ [SPLITCHAR]))),
          eofbit := false, failbit := false }) ∧
    (∀ (T : Type) [LinearOrder T] [TypeId T] (p : EnumParameter T) (m : StdMap T)
        (ops : List (EnumOp T)), (∀ m1, EnumOp.setOptions m1 ∉ ops) →
      ((p.setOptions m).run ops).m_options =
        [TypeId.name T, p.m_name] ++ m.entries.map Prod.snd ∧
      ((p.setOptions m).run ops).m_options.length = 2 + m.entries.length ∧
      m.entries.Pairwise (fun a b => a.1 < b.1) ∧
      ((p.setOptions m).run ops).getOptions =
        { buf := (TypeId.name T).toList ++ SPLITCHAR :: (p.m_name.toList ++ SPLITCHAR ::
            ((m.entries.map Prod.snd).map (fun l => l.toList ++ [SPLITCHAR])).flatten),
          eofbit := false, failbit := false }) := by
  constructor
  · intro T _ _ p low high ops hops
    have h := (ValueParameter.run_options ops (p.setRange low high) hops).1
    have h2 : (p.setRange low high).m_options =
        [TypeId.name T, p.m_name, Numeric.to_string low, Numeric.to_string high] := rfl
    rw [h2] at h
    refine ⟨h, ?_⟩
    simp [ValueParameter.getOptions, ParameterBase.getOptions, h]
  · intro T _ _ p m ops hops
    have h := (EnumParameter.enum_run_options ops (p.setOptions m) hops).1
    have h2 : (p.setOptions m).m_options =
        [TypeId.name T, p.m_name] ++ m.entries.map Prod.snd := rfl
    rw [h2] at h
    refine ⟨h, ?_, m.ascending, ?_⟩
    · rw [h]
      simp
      omega
    · simp [EnumParameter.getOptions, ParameterBase.getOptions, h]

/-- The stream of C11 on two inputs: an `int` parameter after `setRange(-5, 10)` and a
later `setValue(3)`, and the enum parameter with the map `0 ↦ Erode, 1 ↦ Dilate,
2 ↦ Open`. -/
theorem getOptions_examples :
    String.mk ((((ValueParameter.construct [] "Border_width" (0 : Int)).1.setRange (-5)
        10).setValue 3).2.getOptions).buf = "i|Border_width|-5|10|" ∧
    String.mk morphTypeParameter.getOptions.buf = "i|Morphology_type|Erode|Dilate|Open|" :=
  ⟨rfl, rfl⟩

/-! ## Texts that do not begin with a number -/

theorem stoiDigits_invalid (neg : Bool) (r : List Char)
    (h : ∀ d rest, r = d :: rest → isdigit d = false) :
    stoiDigits neg r = .error (.invalid_argument "stoi") := by
  have ht : r.takeWhile isdigit = [] := by
    cases r with
    | nil => rfl
    | cons d rest => simp [List.takeWhile_cons, h d rest rfl]
  simp [stoiDigits, ht]

theorem toList_split_isspace (s : String) :
    ∃ ws : List Char, s.toList = ws ++ s.toList.dropWhile isspace ∧
      ∀ c ∈ ws, isspace c = true :=
  ⟨s.toList.takeWhile isspace, (List.takeWhile_append_dropWhile isspace s.toList).symm,
   fun _ hc => List.mem_takeWhile_imp hc⟩

theorem stoi_invalid_of_not_beginsWithInteger (s : String) (h : ¬ beginsWithInteger s) :
    stoi s = .error (.invalid_argument "stoi") := by
  obtain ⟨ws, hsplit, hws⟩ := toList_split_isspace s
  unfold stoi
  cases hd : s.toList.dropWhile isspace with
  | nil => rfl
  | cons c r =>
    rw [hd] at hsplit
    by_cases hm : c = '-'
    · simp only [hm, if_true]
      apply stoiDigits_invalid
      intro d rest hr
      by_contra hdig
      apply h
      refine ⟨_, ['-'], d, rest, ?_, hws, Or.inr (Or.inl rfl), by simpa using hdig⟩
      rw [hsplit, hm, hr]
      simp
    · by_cases hp : c = '+'
      · simp only [hm, if_false, hp, if_true]
        apply stoiDigits_invalid
        intro d rest hr
        by_contra hdig
        apply h
        refine ⟨_, ['+'], d, rest, ?_, hws, Or.inr (Or.inr rfl), by simpa using hdig⟩
        rw [hsplit, hp, hr]
        simp
      · simp only [hm, hp, if_false]
        apply stoiDigits_invalid
        intro d rest hr
        by_contra hdig
        apply h
        refine ⟨_, [], d, rest, ?_, hws, Or.inl rfl, by simpa using hdig⟩
        rw [hsplit, hr]
        simp

theorem startsFloatingNumeral_cases (body : List Char)
    (h : startsFloatingNumeral body = true) :
    (∃ d rest, body = d :: rest ∧ isdigit d = true) ∨
    (∃ d rest, body = '.' :: d :: rest ∧ isdigit d = true) ∨
    (∃ a b c rest, body = a :: b :: c :: rest ∧
      ([tolower a, tolower b, tolower c] = ['i', 'n', 'f'] ∨
       [tolower a, tolower b, tolower c] = ['n', 'a', 'n'])) := by
  cases body with
  | nil => simp [startsFloatingNumeral] at h
  | cons c r =>
    simp only [startsFloatingNumeral, Bool.or_eq_true, Bool.and_eq_true, beq_iff_eq] at h
    rcases h with ((h | h) | h) | h
    · exact Or.inl ⟨c, r, rfl, h⟩
    · cases r with
      | nil => simp at h
      | cons d rest => exact Or.inr (Or.inl ⟨d, rest, by rw [h.1], h.2⟩)
    · match r, h with
      | [], h => simp at h
      | [_], h => simp at h
      | b :: e :: rest, h =>
        exact Or.inr (Or.inr ⟨c, b, e, rest, rfl, Or.inl (by simpa using h)⟩)
    · match r, h with
      | [], h => simp at h
      | [_], h => simp at h
      | b :: e :: rest, h =>
        exact Or.inr (Or.inr ⟨c, b, e, rest, rfl, Or.inr (by simpa using h)⟩)

theorem stod_invalid_of_not_beginsWithFloating (strtod : List Char → Except Exn Double)
    (s : String) (h : ¬ beginsWithFloating s) :
    stod strtod s = .error (.invalid_argument "stod") := by
  obtain ⟨ws, hsplit, hws⟩ := toList_split_isspace s
  unfold stod
  cases hd : s.toList.dropWhile isspace with
  | nil => rfl
  | cons c r =>
    rw [hd] at hsplit
    have hno : startsFloatingNumeral (if c = '-' ∨ c = '+' then r else c :: r) = false := by
      by_contra hc
      have hc2 := startsFloatingNumeral_cases _ (by simpa using hc)
      apply h
      by_cases hsign : c = '-' ∨ c = '+'
      · rw [if_pos hsign] at hc2
        refine ⟨_, [c], r, ?_, hws, ?_, hc2⟩
        · rw [hsplit]; simp
        · rcases hsign with h1 | h1
          · exact Or.inr (Or.inl (by rw [h1]))
          · exact Or.inr (Or.inr (by rw [h1]))
      · rw [if_neg hsign] at hc2
        exact ⟨_, [], c :: r, by rw [hsplit]; simp, hws, Or.inl rfl, hc2⟩
    simp only [hno, Bool.false_eq_true, if_false]

theorem dropWhile_isspace_prefix (ws : List Char) (x : Char) (tail : List Char)
    (hws : ∀ c ∈ ws, isspace c = true) (hx : isspace x = false) :
    (ws ++ x :: tail).dropWhile isspace = x :: tail := by
  induction ws with
  | nil => simp [List.dropWhile_cons, hx]
  | cons w ws ih =>
    have hw : isspace w = true := hws w (List.mem_cons_self _ _)
    simp only [List.cons_append, List.dropWhile_cons, hw, if_true]
    exact ih (fun c hc => hws c (List.mem_cons_of_mem _ hc))

theorem stoiDigits_not_invalid (neg : Bool) (d : Char) (rest : List Char)
    (hd : isdigit d = true) :
    stoiDigits neg (d :: rest) ≠ .error (.invalid_argument "stoi") := by
  unfold stoiDigits
  simp only [List.takeWhile_cons, hd, if_true]
  split
  · rename_i h; simp at h
  · split <;> split <;> simp

/-- A text that begins with an `int` number is not rejected by `stoi` as unparsable. -/
theorem stoi_not_invalid_of_beginsWithInteger (s : String) (h : beginsWithInteger s) :
    stoi s ≠ .error (.invalid_argument "stoi") := by
  obtain ⟨ws, sign, d, rest, hs, hws, hsign, hd⟩ := h
  have hdsp := isdigit_not_isspace d hd
  have hdsg := isdigit_ne_sign d hd
  unfold stoi
  rcases hsign with h0 | h1 | h2
  · rw [hs, h0, List.append_nil, dropWhile_isspace_prefix ws d rest hws hdsp]
    simp only [hdsg.1, hdsg.2, if_false]
    exact stoiDigits_not_invalid false d rest hd
  · have e : ws ++ sign ++ d :: rest = ws ++ '-' :: (d :: rest) := by rw [h1]; simp
    rw [hs, e, dropWhile_isspace_prefix ws '-' (d :: rest) hws rfl]
    simp only [if_true]
    exact stoiDigits_not_invalid true d rest hd
  · have e : ws ++ sign ++ d :: rest = ws ++ '+' :: (d :: rest) := by rw [h2]; simp
    rw [hs, e, dropWhile_isspace_prefix ws '+' (d :: rest) hws rfl]
    have hne : ¬ ('+' : Char) = '-' := by decide
    simp only [hne, if_false, if_true]
    exact stoiDigits_not_invalid false d rest hd

/-- C12: on an `int` parameter `setValueStr(s)` throws `std::invalid_argument` for every
text `s` that does not begin, after leading white space, with an `int` number, and on a
`double` parameter for every text that does not begin with a `double` number; in both
cases the parameter, its stored value included, is left as it was. -/
theorem setValueStr_parse_failure_keeps_value :
    (∀ (p : ValueParameter Int) (s : String), ¬ beginsWithInteger s →
      p.setValueStr s = (.error (.invalid_argument "stoi"), p)) ∧
    (∀ (to_string : Double → String) (strtod : List Char → Except Exn Double)
        (p : ValueParameter Double) (s : String), ¬ beginsWithFloating s →
      @ValueParameter.setValueStr Double (doubleNumeric to_string strtod) p s
        = (.error (.invalid_argument "stod"), p)) := by
  constructor
  · intro p s h
    have hs : (Numeric.fromStr s : Except Exn Int) = .error (.invalid_argument "stoi") :=
      stoi_invalid_of_not_beginsWithInteger s h
    unfold ValueParameter.setValueStr
    rw [hs]
  · intro to_string strtod p s h
    have hs : (@Numeric.fromStr Double (doubleNumeric to_string strtod) s)
        = .error (.invalid_argument "stod") :=
      stod_invalid_of_not_beginsWithFloating strtod s h
    unfold ValueParameter.setValueStr
    rw [hs]

/-- The two texts named in C12, the empty text and `abc`, on any `int` and any `double`
parameter. -/
theorem setValueStr_parse_failure_examples :
    (∀ p : ValueParameter Int,
      p.setValueStr "" = (.error (.invalid_argument "stoi"), p) ∧
      p.setValueStr "abc" = (.error (.invalid_argument "stoi"), p)) ∧
    (∀ (to_string : Double → String) (strtod : List Char → Except Exn Double)
        (p : ValueParameter Double),
      @ValueParameter.setValueStr Double (doubleNumeric to_string strtod) p ""
        = (.error (.invalid_argument "stod"), p) ∧
      @ValueParameter.setValueStr Double (doubleNumeric to_string strtod) p "abc"
        = (.error (.invalid_argument "stod"), p)) :=
  ⟨fun _ => ⟨rfl, rfl⟩, fun _ _ _ => ⟨rfl, rfl⟩⟩

/-! ## Claims on the parameter list of a step -/

/-- C13: constructing a numeric or an enum parameter with a parent list appends exactly
one entry, the new parameter, at the end of that list and leaves the earlier entries as
they were; so the list of a step holds its parameters in declaration order, which for
`Morph` is `Morphology_type`, `Structural_element_X_axis`, `Structural_element_Y_axis`
and for `PropFilter` the region-property type, `Lower_Limit`, `Upper_Limit`. -/
theorem construct_appends_to_parent_list :
    (∀ (T : Type) [ValueInit T] (parent : List String) (name : String) (v : T),
      (ValueParameter.construct parent name v).2 = parent ++ [name] ∧
      (ValueParameter.construct parent name v).2.length = parent.length + 1 ∧
      (ValueParameter.construct parent name v).2.take parent.length = parent ∧
      (ValueParameter.construct parent name v).2.getLast? =
        some (ValueParameter.construct parent name v).1.m_name) ∧
    (∀ (T : Type) [LinearOrder T] (parent : List String) (name : String) (v : T),
      (EnumParameter.construct parent name v).2 = parent ++ [name] ∧
      (EnumParameter.construct parent name v).2.length = parent.length + 1 ∧
      (EnumParameter.construct parent name v).2.take parent.length = parent ∧
      (EnumParameter.construct parent name v).2.getLast? =
        some (EnumParameter.construct parent name v).1.m_name) ∧
    (Morph.memberInit.m_parameters =
        [Morph.memberInit.m_morphType.m_name, Morph.memberInit.m_morphValueX.m_name,
         Morph.memberInit.m_morphValueY.m_name] ∧
      Morph.memberInit.m_parameters =
        ["Morphology_type", "Structural_element_X_axis", "Structural_element_Y_axis"]) ∧
    (∀ Area : Int,
      (PropFilter.memberInit Area).m_parameters =
        [(PropFilter.memberInit Area).m_regionPropsTypes.m_name,
         (PropFilter.memberInit Area).m_lowerLimit.m_name,
         (PropFilter.memberInit Area).m_upperLimit.m_name] ∧
      (PropFilter.memberInit Area).m_parameters =
        ["Regionprop types", "Lower_Limit", "Upper_Limit"]) := by
  refine ⟨?_, ?_, ⟨rfl, rfl⟩, fun _ => ⟨rfl, rfl⟩⟩
  · intro T _ parent name v
    refine ⟨rfl, ?_, ?_, ?_⟩
    · simp [ValueParameter.construct]
    · simp [ValueParameter.construct]
    · simp [ValueParameter.construct]
  · intro T _ parent name v
    refine ⟨rfl, ?_, ?_, ?_⟩
    · simp [EnumParameter.construct]
    · simp [EnumParameter.construct]
    · simp [EnumParameter.construct]

/-! ## Claims on the session reset (helpers spec-modelled) -/

theorem clearCamelFrames_empty (frames : List Mat) :
    clearCamelFrames frames = { frames := [] } := by
  induction frames with
  | nil => rfl
  | cons f rest ih => exact ih

/-- C14: after `Experiment::reset()` the raw queue, the processed queue, both write
buffers and the list of data containers are empty, whatever they held before; the other
members are untouched. -/
theorem Experiment_reset_empties_queues_buffers_data (e : Experiment) :
    e.reset.raw.frames = [] ∧ e.reset.processed.frames = [] ∧
    e.reset.writeBuffer_raw.pending = [] ∧ e.reset.writeBuffer_processed.pending = [] ∧
    e.reset.data = [] ∧
    e.reset.raw.pop.1 = false ∧ e.reset.processed.pop.1 = false ∧
    e.reset.inlet = e.inlet ∧ e.reset.outlet = e.outlet ∧ e.reset.cellNum = e.cellNum := by
  have hr : e.reset.raw = { frames := [] } := clearCamelFrames_empty e.raw.frames
  have hp : e.reset.processed = { frames := [] } := clearCamelFrames_empty e.processed.frames
  refine ⟨?_, ?_, rfl, rfl, rfl, ?_, ?_, rfl, rfl, rfl⟩
  · rw [hr]
  · rw [hp]
  · rw [hr]; rfl
  · rw [hp]; rfl

/-- The reset of C14 on a session that holds frames in every queue and buffer and a data
container. -/
theorem Experiment_reset_example :
    busyExperiment.raw.frames.length = 3 ∧ busyExperiment.data.length = 1 ∧
    busyExperiment.reset.raw.frames = [] ∧ busyExperiment.reset.processed.frames = [] ∧
    busyExperiment.reset.writeBuffer_raw.pending = [] ∧
    busyExperiment.reset.writeBuffer_processed.pending = [] ∧
    busyExperiment.reset.data.length = 0 :=
  ⟨rfl, rfl, rfl, rfl, rfl, rfl, rfl⟩

/-! ## Claims on the display names -/

theorem checkDisplayNameLoop_eq_true_iff (name : List Char) (todo : Nat) :
    ∀ i, checkDisplayNameLoop name todo i = true ↔
      ∀ j, i ≤ j → j < i + todo → name.getD j (Char.ofNat 0) ≠ ' ' := by
  induction todo with
  | zero =>
    intro i
    simp only [checkDisplayNameLoop, true_iff]
    intro j h1 h2
    omega
  | succ todo ih =>
    intro i
    by_cases hsp : name.getD i (Char.ofNat 0) = ' '
    · simp only [checkDisplayNameLoop, hsp, if_true, Bool.false_eq_true, false_iff]
      intro hc
      exact hc i (le_refl _) (by omega) hsp
    · simp only [checkDisplayNameLoop, hsp, if_false]
      rw [ih (i + 1)]
      constructor
      · intro h j h1 h2
        by_cases hj : j = i
        · rw [hj]; exact hsp
        · exact h j (by omega) (by omega)
      · intro h j h1 h2
        exact h j (by omega) (by omega)

/-- The function `checkDisplayName` returns `true` exactly when no character before the
terminator is a space. -/
theorem checkDisplayName_eq_true_iff (name : List Char) :
    checkDisplayName name = true ↔
      ∀ j, j < ct_strlen name → name.getD j (Char.ofNat 0) ≠ ' ' := by
  unfold checkDisplayName
  rw [checkDisplayNameLoop_eq_true_iff]
  constructor
  · intro h j hj
    exact h j (Nat.zero_le _) (by omega)
  · intro h j _ hj
    exact h j (by omega)

/-- C16 (the code at the failing input): of the thirteen parameter display names declared
by the built-in steps, `checkDisplayName` accepts twelve and rejects `Regionprop types`, the
name `PropFilter` gives its region-property type, which has a space at index 10. -/
theorem checkDisplayName_rejects_Regionprop_types :
    declaredDisplayNames =
      ["Morphology_type", "Structural_element_X_axis", "Structural_element_Y_axis",
       "Edge_threshold", "Maximum_binary_value", "Normalize_strength", "Edge_threshold",
       "Low_threshold", "High_threshold", "Border_width",
       "Regionprop types", "Lower_Limit", "Upper_Limit"] ∧
    (PropFilter.memberInit 0).m_regionPropsTypes.m_name = "Regionprop types" ∧
    checkDisplayName "Regionprop types".toList = false ∧
    "Regionprop types".toList.getD 10 (Char.ofNat 0) = ' ' ∧
    declaredDisplayNames.filter (fun n => !checkDisplayName n.toList) =
      ["Regionprop types"] := by
  refine ⟨rfl, rfl, rfl, rfl, ?_⟩
  decide

/-! ## Numeric parameter: rejected values and the default-constructed range -/

namespace ValueParameter

variable {T : Type}

theorem setValue_error_val [LinearOrder T] (p : ValueParameter T) (v : T)
    (h : (p.setValue v).1 = .error (.runtime_error msgOutsideRange)) :
    (p.setValue v).2.m_val = p.m_val := by
  by_cases hr : v ≥ p.m_range.1 ∧ v ≤ p.m_range.2
  · have hok := (setValue_ok_iff p v).mpr hr
    rw [hok] at h
    cases h
  · simp [setValue, hr]

/-- Calls other than `setValue` and `setValueStr` leave the stored value as it is. -/
theorem run_val [LinearOrder T] [Numeric T] (ops : List (ValueOp T)) :
    ∀ p : ValueParameter T, (∀ v, ValueOp.setValue v ∉ ops) →
      (∀ str, ValueOp.setValueStr str ∉ ops) → (p.run ops).m_val = p.m_val := by
  induction ops with
  | nil => intro p _ _; rfl
  | cons op ops ih =>
    intro p h1 h2
    rw [run_cons, ih _ (fun v hc => h1 v (List.mem_cons_of_mem _ hc))
      (fun str hc => h2 str (List.mem_cons_of_mem _ hc))]
    cases op with
    | setModifiable val => rfl
    | setRange a b => rfl
    | setValue v => exact absurd (List.mem_cons_self _ _) (h1 v)
    | setValueStr str => exact absurd (List.mem_cons_self _ _) (h2 str)

theorem construct_range [ValueInit T] (parent : List String) (name : String) (v0 : T) :
    (construct parent name v0).1.m_range = (ValueInit.zero, ValueInit.zero) := rfl

end ValueParameter

/-- C19: on a numeric parameter on which `setRange` has not been called since
construction, the range is the value-initialized pair `[0, 0]`: `setValue(v)` fails as
out of range for every `v` other than `0`, leaving the stored value as it was, and succeeds
only for `v = 0`; a later `setRange(low, high)` does not bring `v` back, whatever `low`
and `high` are, so `getValue()` then returns the old stored value. -/
theorem setValue_before_setRange_checks_zero_range {T : Type} [LinearOrder T] [Numeric T]
    (parent : List String) (name : String) (v0 : T) (ops : List (ValueOp T))
    (hops : ∀ a b, ValueOp.setRange a b ∉ ops) (v : T) :
    ((ValueParameter.construct parent name v0).1.run ops).m_range
      = (ValueInit.zero, ValueInit.zero) ∧
    ((((ValueParameter.construct parent name v0).1.run ops).setValue v).1 = .ok ()
      ↔ v = ValueInit.zero) ∧
    (v ≠ ValueInit.zero →
      (((ValueParameter.construct parent name v0).1.run ops).setValue v).1
        = .error (.runtime_error msgOutsideRange) ∧
      (((ValueParameter.construct parent name v0).1.run ops).setValue v).2.m_val
        = ((ValueParameter.construct parent name v0).1.run ops).m_val ∧
      ∀ low high : T,
        ((((ValueParameter.construct parent name v0).1.run ops).setValue v).2.setRange
          low high).getValue
          = .ok ((ValueParameter.construct parent name v0).1.run ops).m_val) := by
  have hr : ((ValueParameter.construct parent name v0).1.run ops).m_range
      = (ValueInit.zero, ValueInit.zero) := by
    rw [ValueParameter.run_range ops _ hops, ValueParameter.construct_range]
  have hiff : (((ValueParameter.construct parent name v0).1.run ops).setValue v).1 = .ok ()
      ↔ v = ValueInit.zero := by
    rw [ValueParameter.setValue_ok_iff, hr]
    constructor
    · intro h
      exact le_antisymm h.2 h.1
    · intro h
      rw [h]
      exact ⟨le_refl _, le_refl _⟩
  refine ⟨hr, hiff, ?_⟩
  intro hne
  have herr : (((ValueParameter.construct parent name v0).1.run ops).setValue v).1
      = .error (.runtime_error msgOutsideRange) := by
    rw [ValueParameter.setValue_error_iff, hr]
    rcases lt_or_gt_of_ne hne with h | h
    · exact Or.inl h
    · exact Or.inr h
  have hval := ValueParameter.setValue_error_val _ v herr
  refine ⟨herr, hval, ?_⟩
  intro low high
  rw [ValueParameter.getValue_ok_iff, ValueParameter.setRange_isInitialized,
    ValueParameter.setRange_val, ValueParameter.setValue_isInitialized]
  refine ⟨(testBit_or_RANGE_SET _).1, ?_, hval⟩
  rw [(testBit_or_RANGE_SET _).2]
  exact (testBit_or_DEFAULT_SET _).1

/-- Witness for C19: an `int` parameter constructed with `2`, `setValue(5)` before any
`setRange`, then `setRange(0, 10)`: `getValue()` returns `2` although `0 ≤ 5 ≤ 10`. -/
theorem setValue_before_setRange_checks_zero_range_witness :
    (∀ a b, ValueOp.setRange a b ∉ [(ValueOp.setModifiable false : ValueOp Int)]) ∧
    ((ValueParameter.construct [] "Border_width" (2 : Int)).1.run
        [ValueOp.setModifiable false]).m_range = (0, 0) ∧
    ((((ValueParameter.construct [] "Border_width" (2 : Int)).1.run
        [ValueOp.setModifiable false]).setValue 5).1 = .ok () ↔ (5 : Int) = 0) ∧
    ((5 : Int) ≠ 0 →
      (((ValueParameter.construct [] "Border_width" (2 : Int)).1.run
        [ValueOp.setModifiable false]).setValue 5).1
        = .error (.runtime_error msgOutsideRange) ∧
      (((ValueParameter.construct [] "Border_width" (2 : Int)).1.run
        [ValueOp.setModifiable false]).setValue 5).2.m_val = 2 ∧
      ∀ low high : Int,
        ((((ValueParameter.construct [] "Border_width" (2 : Int)).1.run
          [ValueOp.setModifiable false]).setValue 5).2.setRange low high).getValue
          = .ok 2) :=
  ⟨by simp,
   setValue_before_setRange_checks_zero_range [] "Border_width" (2 : Int)
     [ValueOp.setModifiable false] (by simp) 5⟩

/-! ## Numeric parameter: every call that can change it -/

namespace ValueParameter

variable {T : Type}

/-- Through `serialize` only `m_val` can change. -/
theorem serialize_frame [Primitive T] (ar : Archive) (p : ValueParameter T) :
    ∀ r, ValueParameter.serialize ar p = .ok r →
      r.2.m_isInitialized = p.m_isInitialized ∧ r.2.m_range = p.m_range ∧
        (∀ w, ar = Archive.saving w → r.2.m_val = p.m_val) := by
  intro r h
  unfold ValueParameter.serialize at h
  split at h
  · rename_i ar1 v hamp
    cases h
    refine ⟨rfl, rfl, ?_⟩
    intro w hw
    rw [hw] at hamp
    simp only [Archive.amp, Except.ok.injEq, Prod.mk.injEq] at hamp
    exact hamp.2.symm
  · cases h

theorem call_isInitialized [LinearOrder T] [Numeric T] [Primitive T]
    (p : ValueParameter T) (c : ValueCall T) (h : ∀ o, c ≠ ValueCall.op o) :
    (p.call c).m_isInitialized = p.m_isInitialized ∧ (p.call c).m_range = p.m_range := by
  cases c with
  | op o => exact absurd rfl (h o)
  | updateOptions => exact ⟨rfl, rfl⟩
  | save =>
    simp only [call]
    split
    · rename_i r hr
      exact ⟨(serialize_frame _ p r hr).1, (serialize_frame _ p r hr).2.1⟩
    · exact ⟨rfl, rfl⟩
  | load data =>
    simp only [call]
    split
    · rename_i r hr
      exact ⟨(serialize_frame _ p r hr).1, (serialize_frame _ p r hr).2.1⟩
    · exact ⟨rfl, rfl⟩

theorem call_val [LinearOrder T] [Numeric T] [Primitive T]
    (p : ValueParameter T) (c : ValueCall T)
    (h1 : ∀ v, c ≠ ValueCall.op (ValueOp.setValue v))
    (h2 : ∀ str, c ≠ ValueCall.op (ValueOp.setValueStr str))
    (h3 : ∀ data, c ≠ ValueCall.load data) :
    (p.call c).m_val = p.m_val := by
  cases c with
  | op o =>
    cases o with
    | setModifiable val => rfl
    | setRange a b => rfl
    | setValue v => exact absurd rfl (h1 v)
    | setValueStr str => exact absurd rfl (h2 str)
  | updateOptions => rfl
  | save =>
    simp only [call]
    split
    · rename_i r hr
      exact (serialize_frame _ p r hr).2.2 [] rfl
    · rfl
  | load data => exact absurd rfl (h3 data)

theorem runCalls_cons [LinearOrder T] [Numeric T] [Primitive T] (p : ValueParameter T)
    (c : ValueCall T) (calls : List (ValueCall T)) :
    p.runCalls (c :: calls) = (p.call c).runCalls calls := rfl

theorem call_bit0 [LinearOrder T] [Numeric T] [Primitive T] (p : ValueParameter T)
    (c : ValueCall T) :
    (p.call c).m_isInitialized.testBit 0 = true ↔
      (p.m_isInitialized.testBit 0 = true ∨
        ∃ a b, c = ValueCall.op (ValueOp.setRange a b)) := by
  by_cases hc : ∃ o, c = ValueCall.op o
  · obtain ⟨o, ho⟩ := hc
    rw [ho]
    have := step_bit0 p o
    simp only [call, this, ValueCall.op.injEq]
  · have h := (call_isInitialized p c (fun o ho => hc ⟨o, ho⟩)).1
    rw [h]
    constructor
    · exact Or.inl
    · rintro (h1 | ⟨a, b, h1⟩)
      · exact h1
      · exact absurd ⟨_, h1⟩ hc

theorem call_bit1 [LinearOrder T] [Numeric T] [Primitive T] (p : ValueParameter T)
    (c : ValueCall T) :
    (p.call c).m_isInitialized.testBit 1 = true ↔
      (p.m_isInitialized.testBit 1 = true ∨
        ∃ v, c = ValueCall.op (ValueOp.setValue v)) := by
  by_cases hc : ∃ o, c = ValueCall.op o
  · obtain ⟨o, ho⟩ := hc
    rw [ho]
    have := step_bit1 p o
    simp only [call, this, ValueCall.op.injEq]
  · have h := (call_isInitialized p c (fun o ho => hc ⟨o, ho⟩)).1
    rw [h]
    constructor
    · exact Or.inl
    · rintro (h1 | ⟨v, h1⟩)
      · exact h1
      · exact absurd ⟨_, h1⟩ hc

theorem runCalls_bit0 [LinearOrder T] [Numeric T] [Primitive T]
    (calls : List (ValueCall T)) :
    ∀ p : ValueParameter T, (p.runCalls calls).m_isInitialized.testBit 0 = true ↔
      (p.m_isInitialized.testBit 0 = true ∨
        ∃ a b, ValueCall.op (ValueOp.setRange a b) ∈ calls) := by
  induction calls with
  | nil => intro p; simp [runCalls]
  | cons c calls ih =>
    intro p
    rw [runCalls_cons, ih, call_bit0]
    constructor
    · rintro ((h | ⟨a, b, h⟩) | ⟨a, b, h⟩)
      · exact Or.inl h
      · exact Or.inr ⟨a, b, by simp [h]⟩
      · exact Or.inr ⟨a, b, List.mem_cons_of_mem _ h⟩
    · rintro (h | ⟨a, b, h⟩)
      · exact Or.inl (Or.inl h)
      · rcases List.mem_cons.mp h with h | h
        · exact Or.inl (Or.inr ⟨a, b, h.symm⟩)
        · exact Or.inr ⟨a, b, h⟩

theorem runCalls_bit1 [LinearOrder T] [Numeric T] [Primitive T]
    (calls : List (ValueCall T)) :
    ∀ p : ValueParameter T, (p.runCalls calls).m_isInitialized.testBit 1 = true ↔
      (p.m_isInitialized.testBit 1 = true ∨
        ∃ v, ValueCall.op (ValueOp.setValue v) ∈ calls) := by
  induction calls with
  | nil => intro p; simp [runCalls]
  | cons c calls ih =>
    intro p
    rw [runCalls_cons, ih, call_bit1]
    constructor
    · rintro ((h | ⟨a, h⟩) | ⟨a, h⟩)
      · exact Or.inl h
      · exact Or.inr ⟨a, by simp [h]⟩
      · exact Or.inr ⟨a, List.mem_cons_of_mem _ h⟩
    · rintro (h | ⟨a, h⟩)
      · exact Or.inl (Or.inl h)
      · rcases List.mem_cons.mp h with h | h
        · exact Or.inl (Or.inr ⟨a, h.symm⟩)
        · exact Or.inr ⟨a, h⟩

/-- Only `setValue`, `setValueStr` and a load through `serialize` write the stored value. -/
theorem runCalls_val [LinearOrder T] [Numeric T] [Primitive T]
    (calls : List (ValueCall T)) :
    ∀ p : ValueParameter T,
      (∀ v, ValueCall.op (ValueOp.setValue v) ∉ calls) →
      (∀ str, ValueCall.op (ValueOp.setValueStr str) ∉ calls) →
      (∀ data, ValueCall.load data ∉ calls) →
      (p.runCalls calls).m_val = p.m_val := by
  induction calls with
  | nil => intro p _ _ _; rfl
  | cons c calls ih =>
    intro p h1 h2 h3
    rw [runCalls_cons, ih _ (fun v hc => h1 v (List.mem_cons_of_mem _ hc))
      (fun str hc => h2 str (List.mem_cons_of_mem _ hc))
      (fun data hc => h3 data (List.mem_cons_of_mem _ hc))]
    exact call_val p c
      (fun v hc => h1 v (by rw [hc]; exact List.mem_cons_self _ _))
      (fun str hc => h2 str (by rw [hc]; exact List.mem_cons_self _ _))
      (fun data hc => h3 data (by rw [hc]; exact List.mem_cons_self _ _))

end ValueParameter

/-- C18 (as stated, at two concrete inputs): an `int` parameter constructed with `0` on
which `setRange(0, 10)` was called and `setValue` never. After `setValueStr("7")`, and
likewise after a load of `7` through `serialize`, the rejected `setValue(100)` makes
`getValue()` succeed, and it returns `7`, not the initial `0`. -/
theorem rejected_setValue_returns_setValueStr_value :
    (ValueOp.calledSetRange [ValueOp.setRange (0 : Int) 10, ValueOp.setValueStr "7"] ∧
      ¬ ValueOp.calledSetValue [ValueOp.setRange (0 : Int) 10, ValueOp.setValueStr "7"] ∧
      (((ValueParameter.construct [] "Border_width" (0 : Int)).1.run
          [ValueOp.setRange 0 10, ValueOp.setValueStr "7"]).setValue 100).1
        = .error (.runtime_error msgOutsideRange) ∧
      (((ValueParameter.construct [] "Border_width" (0 : Int)).1.run
          [ValueOp.setRange 0 10, ValueOp.setValueStr "7"]).setValue 100).2.getValue
        = .ok 7) ∧
    ((((ValueParameter.construct [] "Border_width" (0 : Int)).1.runCalls
          [ValueCall.op (ValueOp.setRange 0 10), ValueCall.load [ArchiveValue.int 7]]
          ).setValue 100).1
        = .error (.runtime_error msgOutsideRange) ∧
      (((ValueParameter.construct [] "Border_width" (0 : Int)).1.runCalls
          [ValueCall.op (ValueOp.setRange 0 10), ValueCall.load [ArchiveValue.int 7]]
          ).setValue 100).2.getValue
        = .ok 7) := by
  refine ⟨⟨⟨0, 10, by simp⟩, ?_, rfl, rfl⟩, rfl, rfl⟩
  rintro ⟨v, hv⟩
  simp at hv

/-- C18 (amended): a numeric `setValue(v)` that is rejected as out of range leaves the
stored value and the range unchanged but still marks the parameter default-initialized:
on a parameter on which `setRange` was called and `setValue` never, whatever other calls
were made, `getValue()` fails before the rejected call and succeeds after it, returning
the stored value; that value is the initial value of the constructor when nothing else
has written it, that is when neither `setValueStr` nor a load through `serialize` is
among the calls. On a `double` parameter in any state with the range set, a rejected
`setValue` likewise leaves value and range and makes `getValue()` return the stored value. -/
theorem rejected_setValue_marks_default_set {T : Type} [LinearOrder T] [Numeric T]
    [Primitive T] (parent : List String) (name : String) (v0 : T)
    (calls : List (ValueCall T)) (v : T)
    (hrange : ∃ a b, ValueCall.op (ValueOp.setRange a b) ∈ calls)
    (hnoval : ∀ w, ValueCall.op (ValueOp.setValue w) ∉ calls)
    (hrej : (((ValueParameter.construct parent name v0).1.runCalls calls).setValue v).1
      = .error (.runtime_error msgOutsideRange)) :
    (((ValueParameter.construct parent name v0).1.runCalls calls).setValue v).2.m_val
      = ((ValueParameter.construct parent name v0).1.runCalls calls).m_val ∧
    (((ValueParameter.construct parent name v0).1.runCalls calls).setValue v).2.m_range
      = ((ValueParameter.construct parent name v0).1.runCalls calls).m_range ∧
    (∃ e, ((ValueParameter.construct parent name v0).1.runCalls calls).getValue = .error e ∧
      e.isNotInitialized) ∧
    (((ValueParameter.construct parent name v0).1.runCalls calls).setValue v).2.getValue
      = .ok ((ValueParameter.construct parent name v0).1.runCalls calls).m_val ∧
    ((∀ str, ValueCall.op (ValueOp.setValueStr str) ∉ calls) →
      (∀ data, ValueCall.load data ∉ calls) →
      (((ValueParameter.construct parent name v0).1.runCalls calls).setValue v).2.getValue
        = .ok v0) ∧
    (∀ (q : ValueParameter Double) (w : Double),
      q.m_isInitialized &&& RANGE_SET ≠ 0 →
      (q.setValue_double w).1 = .error (.runtime_error msgOutsideRange) →
      (q.setValue_double w).2.m_val = q.m_val ∧
      (q.setValue_double w).2.m_range = q.m_range ∧
      (q.setValue_double w).2.getValue = .ok q.m_val) := by
  have b0 := ValueParameter.runCalls_bit0 calls (ValueParameter.construct parent name v0).1
  have b1 := ValueParameter.runCalls_bit1 calls (ValueParameter.construct parent name v0).1
  have z1 : ¬ ((ValueParameter.construct parent name v0).1.m_isInitialized.testBit 1
      = true) := by simp [ValueParameter.construct]
  have hval := ValueParameter.setValue_error_val _ v hrej
  have hget :
      (((ValueParameter.construct parent name v0).1.runCalls calls).setValue v).2.getValue
        = .ok ((ValueParameter.construct parent name v0).1.runCalls calls).m_val := by
    rw [ValueParameter.getValue_ok_iff, ValueParameter.setValue_isInitialized]
    refine ⟨?_, (testBit_or_DEFAULT_SET _).1, hval⟩
    rw [(testBit_or_DEFAULT_SET _).2]
    exact b0.mpr (Or.inr hrange)
  refine ⟨hval, ValueParameter.setValue_range _ v, ?_, hget, ?_, ?_⟩
  · apply ValueParameter.getValue_error
    rintro ⟨_, h1⟩
    rcases b1.mp h1 with h | ⟨w, hw⟩
    · exact z1 h
    · exact hnoval w hw
  · intro hnostr hnoload
    rw [hget, ValueParameter.runCalls_val calls _ hnoval hnostr hnoload]
    rfl
  · intro q w hbit hrejd
    have hne : (q.setValue_double w).1 ≠ .ok () := by
      rw [hrejd]
      intro hc
      cases hc
    have hv := (ValueParameter.setValue_double_val q w).2 hne
    refine ⟨hv, ValueParameter.setValue_double_range q w, ?_⟩
    rw [ValueParameter.getValue_ok_iff, ValueParameter.setValue_double_isInitialized]
    refine ⟨?_, (testBit_or_DEFAULT_SET _).1, hv⟩
    rw [(testBit_or_DEFAULT_SET _).2]
    exact (and_RANGE_SET_ne_zero _).mp hbit

/-- Witness for C18 (amended): an `int` parameter constructed with `3`, then
`updateOptions()`, `setRange(0, 10)` and a save through `serialize`, then the rejected
`setValue(100)`; `getValue()` returns `3`. -/
theorem rejected_setValue_marks_default_set_witness :
    (∃ a b, ValueCall.op (ValueOp.setRange a b) ∈
      [ValueCall.updateOptions, ValueCall.op (ValueOp.setRange (0 : Int) 10),
       ValueCall.save]) ∧
    (∀ w, ValueCall.op (ValueOp.setValue w) ∉
      [ValueCall.updateOptions, ValueCall.op (ValueOp.setRange (0 : Int) 10),
       ValueCall.save]) ∧
    (((ValueParameter.construct [] "Border_width" (3 : Int)).1.runCalls
        [ValueCall.updateOptions, ValueCall.op (ValueOp.setRange 0 10),
         ValueCall.save]).setValue 100).1
      = .error (.runtime_error msgOutsideRange) ∧
    ((((ValueParameter.construct [] "Border_width" (3 : Int)).1.runCalls
        [ValueCall.updateOptions, ValueCall.op (ValueOp.setRange 0 10),
         ValueCall.save]).setValue 100).2.m_val = 3 ∧
      (((ValueParameter.construct [] "Border_width" (3 : Int)).1.runCalls
        [ValueCall.updateOptions, ValueCall.op (ValueOp.setRange 0 10),
         ValueCall.save]).setValue 100).2.m_range = (0, 10) ∧
      (∃ e, ((ValueParameter.construct [] "Border_width" (3 : Int)).1.runCalls
        [ValueCall.updateOptions, ValueCall.op (ValueOp.setRange 0 10),
         ValueCall.save]).getValue = .error e ∧ e.isNotInitialized) ∧
      (((ValueParameter.construct [] "Border_width" (3 : Int)).1.runCalls
        [ValueCall.updateOptions, ValueCall.op (ValueOp.setRange 0 10),
         ValueCall.save]).setValue 100).2.getValue = .ok 3) ∧
    (∀ str, ValueCall.op (ValueOp.setValueStr str) ∉
      [ValueCall.updateOptions, ValueCall.op (ValueOp.setRange (0 : Int) 10),
       ValueCall.save]) ∧
    (∀ data, ValueCall.load data ∉
      [ValueCall.updateOptions, ValueCall.op (ValueOp.setRange (0 : Int) 10),
       ValueCall.save]) :=
  ⟨⟨0, 10, by simp⟩, by simp, rfl,
   ⟨(rejected_setValue_marks_default_set [] "Border_width" (3 : Int)
      [ValueCall.updateOptions, ValueCall.op (ValueOp.setRange 0 10), ValueCall.save] 100
      ⟨0, 10, by simp⟩ (by simp) (by rfl)).1,
    (rejected_setValue_marks_default_set [] "Border_width" (3 : Int)
      [ValueCall.updateOptions, ValueCall.op (ValueOp.setRange 0 10), ValueCall.save] 100
      ⟨0, 10, by simp⟩ (by simp) (by rfl)).2.1,
    (rejected_setValue_marks_default_set [] "Border_width" (3 : Int)
      [ValueCall.updateOptions, ValueCall.op (ValueOp.setRange 0 10), ValueCall.save] 100
      ⟨0, 10, by simp⟩ (by simp) (by rfl)).2.2.1,
    (rejected_setValue_marks_default_set [] "Border_width" (3 : Int)
      [ValueCall.updateOptions, ValueCall.op (ValueOp.setRange 0 10), ValueCall.save] 100
      ⟨0, 10, by simp⟩ (by simp) (by rfl)).2.2.2.2.1 (by simp) (by simp)⟩,
   by simp, by simp⟩

/-! ## Numeric parameter: when the value read lies within the range -/

theorem ValueParameter.setValue_keeps_in_range {T : Type} [LinearOrder T]
    (p : ValueParameter T) (v : T)
    (h : p.m_range.1 ≤ p.m_val ∧ p.m_val ≤ p.m_range.2) :
    (p.setValue v).2.m_range.1 ≤ (p.setValue v).2.m_val ∧
      (p.setValue v).2.m_val ≤ (p.setValue v).2.m_range.2 := by
  by_cases hr : v ≥ p.m_range.1 ∧ v ≤ p.m_range.2
  · have e : (p.setValue v).2 = { p with
        m_isInitialized := p.m_isInitialized ||| DEFAULT_SET, m_val := v } := by
      simp [ValueParameter.setValue, hr]
    rw [e]
    exact hr
  · have e : (p.setValue v).2 = { p with
        m_isInitialized := p.m_isInitialized ||| DEFAULT_SET } := by
      simp [ValueParameter.setValue, hr]
    rw [e]
    exact h

/-- Calls of `setModifiable` and `setValue`, accepted or rejected, keep a stored value
that lies within the range within the range. -/
theorem ValueParameter.run_keeps_in_range {T : Type} [LinearOrder T] [Numeric T]
    (ops : List (ValueOp T)) :
    ∀ p : ValueParameter T,
      (∀ op ∈ ops, (∀ a b, op ≠ ValueOp.setRange a b) ∧
        (∀ str, op ≠ ValueOp.setValueStr str)) →
      (p.m_range.1 ≤ p.m_val ∧ p.m_val ≤ p.m_range.2) →
      ((p.run ops).m_range.1 ≤ (p.run ops).m_val ∧
        (p.run ops).m_val ≤ (p.run ops).m_range.2) := by
  induction ops with
  | nil => intro p _ h; exact h
  | cons op ops ih =>
    intro p hops h
    rw [ValueParameter.run_cons]
    apply ih _ (fun o ho => hops o (List.mem_cons_of_mem _ ho))
    have hop := hops op (List.mem_cons_self _ _)
    cases op with
    | setModifiable val => exact h
    | setRange a b => exact absurd rfl (hop.1 a b)
    | setValue v => exact ValueParameter.setValue_keeps_in_range p v h
    | setValueStr str => exact absurd rfl (hop.2 str)

/-- C15 (as stated, at three concrete inputs), on an `int` parameter constructed with `0`:
after `setRange(0, 10)`, `setValue(5)`, `setRange(6, 10)` the call `getValue()` returns
`5`; after `setRange(1, 10)` and the rejected `setValue(100)` it returns `0`; after
`setRange(0, 10)`, `setValue(5)`, `setValueStr("11")` it returns `11`. Each value lies
outside the current range. -/
theorem getValue_outside_current_range :
    (((ValueParameter.construct [] "Border_width" (0 : Int)).1.run
        [ValueOp.setRange 0 10, ValueOp.setValue 5, ValueOp.setRange 6 10]).getValue
        = .ok 5 ∧
      ((ValueParameter.construct [] "Border_width" (0 : Int)).1.run
        [ValueOp.setRange 0 10, ValueOp.setValue 5, ValueOp.setRange 6 10]).m_range
        = (6, 10) ∧ ¬ ((6 : Int) ≤ 5)) ∧
    (((ValueParameter.construct [] "Border_width" (0 : Int)).1.run
        [ValueOp.setRange 1 10, ValueOp.setValue 100]).getValue = .ok 0 ∧
      ((ValueParameter.construct [] "Border_width" (0 : Int)).1.run
        [ValueOp.setRange 1 10, ValueOp.setValue 100]).m_range = (1, 10) ∧
      ¬ ((1 : Int) ≤ 0)) ∧
    (((ValueParameter.construct [] "Border_width" (0 : Int)).1.run
        [ValueOp.setRange 0 10, ValueOp.setValue 5, ValueOp.setValueStr "11"]).getValue
        = .ok 11 ∧
      ((ValueParameter.construct [] "Border_width" (0 : Int)).1.run
        [ValueOp.setRange 0 10, ValueOp.setValue 5, ValueOp.setValueStr "11"]).m_range
        = (0, 10) ∧ ¬ ((11 : Int) ≤ 10)) :=
  ⟨⟨rfl, rfl, by decide⟩, ⟨rfl, rfl, by decide⟩, ⟨rfl, rfl, by decide⟩⟩

/-- C15 (amended): on a numeric parameter, when the latest `setRange(low, high)` has been
followed by an accepted `setValue(v)`, and after that only `setModifiable` and `setValue`
calls (accepted or rejected) were made, `getValue()` succeeds, the range still is
`[low, high]`, and the value returned lies within it. -/
theorem getValue_within_range_after_accepted_setValue {T : Type} [LinearOrder T]
    [Numeric T] (p : ValueParameter T) (low high v : T)
    (ops2 ops3 : List (ValueOp T))
    (hops2 : ∀ a b, ValueOp.setRange a b ∉ ops2)
    (hv : low ≤ v ∧ v ≤ high)
    (hops3 : ∀ op ∈ ops3, (∀ a b, op ≠ ValueOp.setRange a b) ∧
      (∀ str, op ≠ ValueOp.setValueStr str)) :
    (((p.setRange low high).run ops2).setValue v).1 = .ok () ∧
    ∃ w, (((((p.setRange low high).run ops2).setValue v).2).run ops3).getValue = .ok w ∧
      (((((p.setRange low high).run ops2).setValue v).2).run ops3).m_range = (low, high) ∧
      low ≤ w ∧ w ≤ high := by
  have hr2 : ((p.setRange low high).run ops2).m_range = (low, high) := by
    rw [ValueParameter.run_range ops2 _ hops2, ValueParameter.setRange_range]
  have hok : (((p.setRange low high).run ops2).setValue v).1 = .ok () := by
    rw [ValueParameter.setValue_ok_iff, hr2]
    exact hv
  have hnr3 : ∀ a b, ValueOp.setRange a b ∉ ops3 := fun a b hc => (hops3 _ hc).1 a b rfl
  have hr3 : (((((p.setRange low high).run ops2).setValue v).2).run ops3).m_range
      = (low, high) := by
    rw [ValueParameter.run_range ops3 _ hnr3, ValueParameter.setValue_range, hr2]
  have hin0 : (((p.setRange low high).run ops2).setValue v).2.m_range.1
        ≤ (((p.setRange low high).run ops2).setValue v).2.m_val ∧
      (((p.setRange low high).run ops2).setValue v).2.m_val
        ≤ (((p.setRange low high).run ops2).setValue v).2.m_range.2 := by
    rw [ValueParameter.setValue_ok_val _ v hok, ValueParameter.setValue_range, hr2]
    exact hv
  have hin := ValueParameter.run_keeps_in_range ops3 _ hops3 hin0
  rw [hr3] at hin
  refine ⟨hok, _, ?_, hr3, hin.1, hin.2⟩
  rw [ValueParameter.getValue_ok_iff]
  refine ⟨?_, ?_, rfl⟩
  · rw [ValueParameter.run_bit0, ValueParameter.setValue_isInitialized,
      (testBit_or_DEFAULT_SET _).2, ValueParameter.run_bit0,
      ValueParameter.setRange_isInitialized]
    exact Or.inl (Or.inl (testBit_or_RANGE_SET _).1)
  · rw [ValueParameter.run_bit1, ValueParameter.setValue_isInitialized]
    exact Or.inl (testBit_or_DEFAULT_SET _).1

/-- Witness for C15 (amended): `setRange(0, 10)`, `setValue(5)`, then the rejected
`setValue(11)` and the accepted `setValue(7)`. -/
theorem getValue_within_range_after_accepted_setValue_witness :
    (∀ a b, ValueOp.setRange a b ∉ ([] : List (ValueOp Int))) ∧
    ((0 : Int) ≤ 5 ∧ (5 : Int) ≤ 10) ∧
    (∀ op ∈ [ValueOp.setValue (11 : Int), ValueOp.setValue 7],
      (∀ a b, op ≠ ValueOp.setRange a b) ∧ (∀ str, op ≠ ValueOp.setValueStr str)) ∧
    ((((ValueParameter.construct [] "Border_width" (0 : Int)).1.setRange 0 10).run
        []).setValue 5).1 = .ok () ∧
    ∃ w, ((((((ValueParameter.construct [] "Border_width" (0 : Int)).1.setRange 0 10).run
        []).setValue 5).2).run [ValueOp.setValue 11, ValueOp.setValue 7]).getValue
        = .ok w ∧
      ((((((ValueParameter.construct [] "Border_width" (0 : Int)).1.setRange 0 10).run
        []).setValue 5).2).run [ValueOp.setValue 11, ValueOp.setValue 7]).m_range
        = (0, 10) ∧
      (0 : Int) ≤ w ∧ w ≤ 10 :=
  ⟨by simp, by decide, by simp,
   getValue_within_range_after_accepted_setValue
     (ValueParameter.construct [] "Border_width" (0 : Int)).1 0 10 5 []
     [ValueOp.setValue 11, ValueOp.setValue 7] (by simp) (by decide) (by simp)⟩

/-! ## Reading the stream of `getOptions()` back -/

theorem span_at_stop (q : Char → Bool) (w : List Char) (d : Char) (rest : List Char)
    (hw : ∀ c ∈ w, q c = true) (hd : q d = false) :
    (w ++ d :: rest).takeWhile q = w ∧ (w ++ d :: rest).dropWhile q = d :: rest := by
  induction w with
  | nil => simp only [List.nil_append, List.takeWhile_cons, List.dropWhile_cons, hd,
      Bool.false_eq_true, if_false, and_self]
  | cons a w ih =>
    have ha : q a = true := hw a (List.mem_cons_self _ _)
    have ih2 := ih (fun c hc => hw c (List.mem_cons_of_mem _ hc))
    simp only [List.cons_append, List.takeWhile_cons, List.dropWhile_cons, ha, if_true,
      ih2.1, ih2.2, and_self]

/-- On a stream in good state `getline` reads up to the next delimiter and drops it. -/
theorem getline_token (delim : Char) (w rest : List Char) (hw : delim ∉ w) (str : String) :
    getline { buf := w ++ delim :: rest, eofbit := false, failbit := false } str delim =
      ({ buf := rest, eofbit := false, failbit := false }, String.mk w) := by
  obtain ⟨h1, h2⟩ := span_at_stop (fun c => decide (c ≠ delim)) w delim rest
    (fun c hc => decide_eq_true (fun he => hw (by rw [← he]; exact hc)))
    (decide_eq_false (fun hn => hn rfl))
  unfold getline
  simp only [Bool.false_eq_true, or_self, if_false]
  rw [h2, h1]

/-- On an exhausted stream in good state `getline` reads the empty text and sets `eofbit`
and `failbit`. -/
theorem getline_at_end (delim : Char) (str : String) :
    getline { buf := [], eofbit := false, failbit := false } str delim =
      ({ buf := [], eofbit := true, failbit := true }, "") := by
  simp [getline]

/-- On a stream that is not in good state `getline` leaves `str` as it is. -/
theorem getline_not_good (delim : Char) (s : StringStream) (str : String)
    (h : s.eofbit = true ∨ s.failbit = true) :
    getline s str delim = ({ s with failbit := true }, str) := by
  simp [getline, h]

theorem getOptions_reads_labels (labels : List String)
    (hl : ∀ l ∈ labels, l ≠ "" ∧ SPLITCHAR ∉ l.toList) :
    ∀ (options : List String) (k : Nat),
      getOptions (labels.length + 1 + k)
        { buf := (labels.map (fun l => l.toList ++ [SPLITCHAR])).flatten,
          eofbit := false, failbit := false } options =
        some ({ buf := [], eofbit := true, failbit := true }, options ++ labels) := by
  induction labels with
  | nil =>
    intro options k
    simp only [List.map_nil, List.flatten_nil, List.length_nil, getOptions,
      getParameterStreamToken, getline_at_end]
    have e : 0 + 1 + k = k + 1 := by omega
    rw [e]
    simp [getOptionsLoop]
  | cons l labels ih =>
    intro options k
    have hl0 := hl l (List.mem_cons_self _ _)
    have e1 : ((l :: labels).map (fun l => l.toList ++ [SPLITCHAR])).flatten =
        l.toList ++ SPLITCHAR :: (labels.map (fun l => l.toList ++ [SPLITCHAR])).flatten := by
      simp
    have e2 : (l :: labels).length + 1 + k = (labels.length + 1 + k) + 1 := by
      simp only [List.length_cons]; omega
    have e3 : String.mk l.toList = l := rfl
    rw [e1, e2]
    simp only [getOptions, getParameterStreamToken, getline_token SPLITCHAR l.toList _ hl0.2,
      e3, getOptionsLoop, hl0.1, ne_eq, not_false_eq_true, if_true]
    have ih2 := ih (fun x hx => hl x (List.mem_cons_of_mem _ hx)) (options ++ [l]) k
    simp only [getOptions, getParameterStreamToken] at ih2
    have e4 : ∀ (b : List Char) (s1 s2 : String),
        getline { buf := b, eofbit := false, failbit := false } s1 SPLITCHAR =
        getline { buf := b, eofbit := false, failbit := false } s2 SPLITCHAR := by
      intro b s1 s2
      unfold getline
      simp only [Bool.false_eq_true, or_self, if_false]
    rw [e4 _ l ""]
    rw [ih2]
    simp

/-- The options list of an enum parameter is empty as long as the option map is (no
`setOptions` yet), and otherwise holds tag, name and the labels of the current map. -/
theorem EnumParameter.enum_run_options_invariant {T : Type} [LinearOrder T] [TypeId T]
    (name : String) (ops : List (EnumOp T)) :
    ∀ p : EnumParameter T,
      (p.m_name = name ∧ ((p.m_options = [] ∧ p.m_enumOptions.entries = []) ∨
        p.m_options = [TypeId.name T, name] ++ p.m_enumOptions.entries.map Prod.snd)) →
      ((p.run ops).m_name = name ∧
        (((p.run ops).m_options = [] ∧ (p.run ops).m_enumOptions.entries = []) ∨
          (p.run ops).m_options =
            [TypeId.name T, name] ++ (p.run ops).m_enumOptions.entries.map Prod.snd)) := by
  induction ops with
  | nil => intro p h; exact h
  | cons op ops ih =>
    intro p h
    rw [EnumParameter.enum_run_cons]
    apply ih
    cases op with
    | setModifiable val => exact h
    | setOptions m =>
      refine ⟨h.1, Or.inr ?_⟩
      simp [EnumParameter.step, EnumParameter.setOptions, EnumParameter.updateOptions, h.1]
    | setValue v => exact h
    | setValueStr str => exact h

/-- C17: for an enum parameter whose name and type tag contain no `|` and whose option
labels are all non-empty and contain no `|`: on the stream returned by `getOptions()`,
after the type token and the name token have been read with `getParameterStreamToken`,
the free function `getOptions(stream, options)` on an empty vector terminates (every bound
above the number of labels suffices) and leaves `options` equal to the list of labels in
ascending enumerator order. -/
theorem enum_getOptions_stream_yields_labels {T : Type} [LinearOrder T] [TypeId T]
    (parent : List String) (name : String) (v0 : T) (ops : List (EnumOp T))
    (p : EnumParameter T) (hp : p = (EnumParameter.construct parent name v0).1.run ops)
    (htag : SPLITCHAR ∉ (TypeId.name T).toList)
    (hname : SPLITCHAR ∉ name.toList)
    (hlabels : ∀ x ∈ p.m_enumOptions.entries, x.2 ≠ "" ∧ SPLITCHAR ∉ x.2.toList)
    (typeToken nameToken : String) (fuel : Nat)
    (hfuel : p.m_enumOptions.entries.length + 1 ≤ fuel) :
    (∃ s, getOptions fuel
        (getParameterStreamToken
          (getParameterStreamToken p.getOptions typeToken).1 nameToken).1 []
        = some (s, p.m_enumOptions.entries.map Prod.snd)) ∧
    p.m_enumOptions.entries.Pairwise (fun a b => a.1 < b.1) := by
  refine ⟨?_, p.m_enumOptions.ascending⟩
  have hinv := EnumParameter.enum_run_options_invariant name ops
    (EnumParameter.construct parent name v0).1 ⟨rfl, Or.inl ⟨rfl, rfl⟩⟩
  rw [← hp] at hinv
  obtain ⟨k, hk⟩ : ∃ k, fuel = p.m_enumOptions.entries.length + 1 + k :=
    ⟨fuel - (p.m_enumOptions.entries.length + 1), by omega⟩
  rcases hinv.2 with ⟨hopt, hent⟩ | hopt
  · have hs : p.getOptions = { buf := [], eofbit := false, failbit := false } := by
      simp [EnumParameter.getOptions, ParameterBase.getOptions, hopt]
    rw [hs, hent]
    rw [hent] at hk
    simp only [getParameterStreamToken, getline_at_end]
    rw [getline_not_good SPLITCHAR _ nameToken (Or.inl rfl)]
    simp only [getOptions, getParameterStreamToken]
    rw [getline_not_good SPLITCHAR _ "" (Or.inl rfl)]
    have e : fuel = k + 1 := by simp only [List.length_nil] at hk; omega
    rw [e]
    exact ⟨_, rfl⟩
  · have hs : p.getOptions =
        { buf := (TypeId.name T).toList ++ SPLITCHAR :: (name.toList ++ SPLITCHAR ::
            ((p.m_enumOptions.entries.map Prod.snd).map
              (fun l => l.toList ++ [SPLITCHAR])).flatten),
          eofbit := false, failbit := false } := by
      simp [EnumParameter.getOptions, ParameterBase.getOptions, hopt]
    rw [hs]
    simp only [getParameterStreamToken]
    rw [getline_token SPLITCHAR _ _ htag, getline_token SPLITCHAR _ _ hname]
    have hread := getOptions_reads_labels (p.m_enumOptions.entries.map Prod.snd)
      (by
        intro l hl
        obtain ⟨x, hx, hxl⟩ := List.mem_map.mp hl
        rw [← hxl]
        exact hlabels x hx) [] k
    rw [List.length_map, ← hk] at hread
    exact ⟨_, by simpa using hread⟩

/-- Witness for C17: the enum parameter with the map `0 ↦ Erode, 1 ↦ Dilate, 2 ↦ Open`;
four evaluations of the loop condition suffice. -/
theorem enum_getOptions_stream_yields_labels_witness :
    SPLITCHAR ∉ (TypeId.name Int).toList ∧
    SPLITCHAR ∉ "Morphology_type".toList ∧
    (∀ x ∈ morphTypeParameter.m_enumOptions.entries, x.2 ≠ "" ∧ SPLITCHAR ∉ x.2.toList) ∧
    morphTypeParameter.m_enumOptions.entries.length + 1 ≤ 4 ∧
    (∃ s, getOptions 4
        (getParameterStreamToken
          (getParameterStreamToken morphTypeParameter.getOptions "").1 "").1 []
        = some (s, ["Erode", "Dilate", "Open"])) ∧
    morphTypeParameter.m_enumOptions.entries.Pairwise (fun a b => a.1 < b.1) :=
  ⟨by decide, by decide, by decide, by decide,
   enum_getOptions_stream_yields_labels [] "Morphology_type" 0
     [EnumOp.setOptions morphOptions, EnumOp.setValue 1] morphTypeParameter rfl
     (by decide) (by decide) (by decide) "" "" 4 (by decide)⟩

end RTOC
